import Mathlib

/-!
# Verification of the goobits-forms configuration / routing core

Shallow embedding of the configuration builder, secure merge utility, CSRF
token store, rate limiter, form-data parser and category router of the
goobits-forms library, together with proofs and refutations of the frozen
specification claims.

JavaScript values are modeled by the inductive type `Value`: objects are
association lists of own enumerable string keys in insertion order (the
prototype chain is not modeled; where the difference matters it is noted at
the definition), numbers are exact rationals, and `undefined` is `vundefined`.
-/

namespace Goobits

/-- A JavaScript runtime value.  `vfun` represents a function value opaquely
by a tag (function bodies that the embedded code calls are modeled at the
call site).  `vfile` represents a DOM `File` with the three properties the
code reads (`name`, `type`, `size`). -/
inductive Value where
  | vundefined
  | vnull
  | vbool (b : Bool)
  | vnum (q : ℚ)
  | vstr (s : String)
  | vfun (tag : String)
  | vfile (name mime : String) (size : ℚ)
  | varr (elems : List Value)
  | vobj (fields : List (String × Value))

namespace Value

/-- JS truthiness (`NaN` does not arise in the modeled fragment). -/
def truthy : Value → Bool
  | vundefined => false
  | vnull => false
  | vbool b => b
  | vnum q => q != 0
  | vstr s => s != ""
  | _ => true

/-- `item && typeof item === 'object' && !Array.isArray(item)` — the plain-object
test used by both merge utilities.  A `File` is also a non-array object in JS,
but files never occur in configuration values, so `vfile` is excluded. -/
def isObject : Value → Bool
  | vobj _ => true
  | _ => false

end Value

/-- First binding of `key` in an association list (JS property read on own
keys). -/
def getKey {α : Type} : List (String × α) → String → Option α
  | [], _ => none
  | (k, v) :: rest, key => if k = key then some v else getKey rest key

/-- Own-key membership. -/
def hasKey {α : Type} (fs : List (String × α)) (key : String) : Bool :=
  (getKey fs key).isSome

/-- JS property assignment `o[key] = v` on an object without duplicate keys:
updates the binding in place, or appends a new binding (insertion order). -/
def setKey {α : Type} : List (String × α) → String → α → List (String × α)
  | [], key, v => [(key, v)]
  | (k, w) :: rest, key, v =>
    if k = key then (key, v) :: rest else (k, w) :: setKey rest key v

/-- JS object spread `{...v}`: the own enumerable fields of `v`.  Spreading an
array or a string yields numeric index keys (`"0"`, `"1"`, …); no configuration
flow spreads an array or string and an index key is never one of the dangerous
keys, so those cases are modeled as producing no fields. -/
def spreadFields : Value → List (String × Value)
  | .vobj fs => fs
  | _ => []

/-- `x || {}` applied to a property read that may miss. -/
def jsOrEmptyObj (o : Option Value) : Value :=
  match o with
  | some v => if v.truthy then v else .vobj []
  | none => .vobj []

mutual

/-- Shallow embedding of `deepMerge` from `src/config/index.js` (lines 21–39):
the unsafe merge used by `initContactFormConfig`.  It filters no keys.
`key in target` is modeled as own-key membership (the prototype chain is not
modeled); `output[key] = ...` is modeled as an own-key write — for the key
`"__proto__"` a real JS engine would instead mutate the prototype of the
output, which is exactly the pollution the specification's SafeMerge clause
is meant to prevent; for `"constructor"` and `"prototype"` the write is an
ordinary own-key write in JS as well. -/
def deepMerge (target source : Value) : Value :=
  match target, source with
  | .vobj tfs, .vobj sfs => .vobj (deepMergeFields tfs tfs sfs)
  | _, _ => .vobj (spreadFields target)

/-- The `Object.keys(source).forEach` loop of `deepMerge`: `tfs` is the
(unchanging) target used by the `key in target` test and `target[key]` read,
`out` is the evolving `output` object. -/
def deepMergeFields (tfs out : List (String × Value)) :
    List (String × Value) → List (String × Value)
  | [] => out
  | (key, sv) :: rest =>
    if sv.isObject then
      if hasKey tfs key then
        deepMergeFields tfs
          (setKey out key (deepMerge ((getKey tfs key).getD .vundefined) sv)) rest
      else deepMergeFields tfs (setKey out key sv) rest
    else deepMergeFields tfs (setKey out key sv) rest

end

/-- `isSafeKey` from `src/config/secureDeepMerge.js`: rejects the three
dangerous property names (keys are always strings in the model, so the
`typeof key === 'string'` conjunct is always true). -/
def isSafeKey (key : String) : Bool :=
  !((["__proto__", "constructor", "prototype"] : List String).contains key)

mutual

/-- Shallow embedding of `secureDeepMerge` from `src/config/secureDeepMerge.js`
(lines 31–58). -/
def secureDeepMerge (target source : Value) : Value :=
  match source with
  | .vobj sfs => .vobj (secureMergeFields (spreadFields target) sfs)
  | _ => .vobj (spreadFields target)

/-- The `Object.keys(source).forEach` loop of `secureDeepMerge`: `out` is the
evolving `result` object. -/
def secureMergeFields (out : List (String × Value)) :
    List (String × Value) → List (String × Value)
  | [] => out
  | (key, sv) :: rest =>
    if isSafeKey key then
      if sv.isObject then
        secureMergeFields
          (setKey out key (secureDeepMerge (jsOrEmptyObj (getKey out key)) sv)) rest
      else secureMergeFields (setKey out key sv) rest
    else secureMergeFields out rest

end

mutual

/-- `cleanDeep v` holds when no object nested anywhere inside `v` (including
inside arrays) carries an own key named `__proto__`, `constructor` or
`prototype`. -/
def cleanDeep : Value → Bool
  | .vobj fs => cleanFields fs
  | .varr es => cleanList es
  | _ => true

def cleanFields : List (String × Value) → Bool
  | [] => true
  | (k, v) :: rest => isSafeKey k && cleanDeep v && cleanFields rest

def cleanList : List Value → Bool
  | [] => true
  | v :: rest => cleanDeep v && cleanList rest

end

mutual

/-- `arraysClean v` holds when every array value reachable from `v` through
plain-object nesting is entirely free of dangerous keys.  Keys of the
plain-object levels themselves may be dangerous — `secureDeepMerge` skips
those — but array values are copied wholesale, so their contents must already
be clean. -/
def arraysClean : Value → Bool
  | .vobj fs => arraysCleanFields fs
  | .varr es => cleanList es
  | _ => true

def arraysCleanFields : List (String × Value) → Bool
  | [] => true
  | (_, v) :: rest => arraysClean v && arraysCleanFields rest

end

theorem cleanFields_setKey {out : List (String × Value)} {k : String} {v : Value}
    (hout : cleanFields out = true) (hk : isSafeKey k = true) (hv : cleanDeep v = true) :
    cleanFields (setKey out k v) = true := by
  induction out with
  | nil => simp [setKey, cleanFields, hk, hv]
  | cons p rest ih =>
      obtain ⟨k', v'⟩ := p
      simp only [cleanFields, Bool.and_eq_true] at hout
      by_cases h : k' = k
      · subst h
        simp [setKey, cleanFields, hk, hv, hout.2]
      · simp only [setKey, if_neg h]
        simp [cleanFields, hout.1.1, hout.1.2, ih hout.2]

theorem cleanDeep_getKey {out : List (String × Value)} {k : String} {v : Value}
    (hout : cleanFields out = true) (h : getKey out k = some v) : cleanDeep v = true := by
  induction out with
  | nil => simp [getKey] at h
  | cons p rest ih =>
      obtain ⟨k', v'⟩ := p
      simp only [cleanFields, Bool.and_eq_true] at hout
      by_cases hk : k' = k
      · simp only [getKey, if_pos hk] at h
        exact Option.some.inj h ▸ hout.1.2
      · simp only [getKey, if_neg hk] at h
        exact ih hout.2 h

theorem cleanDeep_jsOrEmptyObj {out : List (String × Value)} {k : String}
    (hout : cleanFields out = true) : cleanDeep (jsOrEmptyObj (getKey out k)) = true := by
  rcases hg : getKey out k with _ | v
  · simp [jsOrEmptyObj, cleanDeep, cleanFields]
  · by_cases ht : v.truthy = true
    · simpa [jsOrEmptyObj, ht] using cleanDeep_getKey hout hg
    · simp [jsOrEmptyObj, ht, cleanDeep, cleanFields]

theorem cleanFields_spreadFields {t : Value} (ht : cleanDeep t = true) :
    cleanFields (spreadFields t) = true := by
  cases t <;> simp_all [spreadFields, cleanDeep, cleanFields]

theorem cleanDeep_of_arraysClean_nonobj {v : Value}
    (h : arraysClean v = true) (hnv : v.isObject = false) : cleanDeep v = true := by
  cases v <;> simp_all [arraysClean, cleanDeep, Value.isObject]

mutual

theorem cleanDeep_secureDeepMerge : ∀ (t s : Value), cleanDeep t = true → arraysClean s = true →
    cleanDeep (secureDeepMerge t s) = true
  | t, .vobj sfs, ht, hs => by
      have h2 : arraysCleanFields sfs = true := by simpa [arraysClean] using hs
      have h3 := cleanFields_secureMergeFields (spreadFields t) sfs
        (cleanFields_spreadFields ht) h2
      simpa [secureDeepMerge, cleanDeep] using h3
  | t, .vundefined, ht, _ => by
      simpa [secureDeepMerge, cleanDeep] using cleanFields_spreadFields ht
  | t, .vnull, ht, _ => by
      simpa [secureDeepMerge, cleanDeep] using cleanFields_spreadFields ht
  | t, .vbool b, ht, _ => by
      simpa [secureDeepMerge, cleanDeep] using cleanFields_spreadFields ht
  | t, .vnum q, ht, _ => by
      simpa [secureDeepMerge, cleanDeep] using cleanFields_spreadFields ht
  | t, .vstr s, ht, _ => by
      simpa [secureDeepMerge, cleanDeep] using cleanFields_spreadFields ht
  | t, .vfun f, ht, _ => by
      simpa [secureDeepMerge, cleanDeep] using cleanFields_spreadFields ht
  | t, .vfile n m z, ht, _ => by
      simpa [secureDeepMerge, cleanDeep] using cleanFields_spreadFields ht
  | t, .varr es, ht, _ => by
      simpa [secureDeepMerge, cleanDeep] using cleanFields_spreadFields ht

theorem cleanFields_secureMergeFields : ∀ (out flds : List (String × Value)),
    cleanFields out = true → arraysCleanFields flds = true →
    cleanFields (secureMergeFields out flds) = true
  | out, [], hout, _ => by simpa [secureMergeFields] using hout
  | out, (key, sv) :: rest, hout, hf => by
      have hsv : arraysClean sv = true := by
        simp only [arraysCleanFields, Bool.and_eq_true] at hf
        exact hf.1
      have hrest : arraysCleanFields rest = true := by
        simp only [arraysCleanFields, Bool.and_eq_true] at hf
        exact hf.2
      by_cases hk : isSafeKey key = true
      · by_cases hobj : sv.isObject = true
        · have hrec : cleanDeep (secureDeepMerge (jsOrEmptyObj (getKey out key)) sv) = true :=
            cleanDeep_secureDeepMerge _ sv (cleanDeep_jsOrEmptyObj hout) hsv
          have hnext := cleanFields_secureMergeFields
            (setKey out key (secureDeepMerge (jsOrEmptyObj (getKey out key)) sv)) rest
            (cleanFields_setKey hout hk hrec) hrest
          simpa [secureMergeFields, hk, hobj] using hnext
        · have hcv : cleanDeep sv = true :=
            cleanDeep_of_arraysClean_nonobj hsv (by simpa using hobj)
          have hnext := cleanFields_secureMergeFields (setKey out key sv) rest
            (cleanFields_setKey hout hk hcv) hrest
          simpa [secureMergeFields, hk, Bool.if_false_left, hobj] using hnext
      · have hnext := cleanFields_secureMergeFields out rest hout hrest
        simpa [secureMergeFields, hk] using hnext

end

/-! ## CSRF token store (`src/security/csrf.js`) -/

/-- The in-memory `tokenStore`: a JS `Map` from token string to expiry epoch
milliseconds, with unique keys. -/
abbrev CsrfStore := List (String × Int)

def TOKEN_EXPIRY_MS : Int := 60 * 60 * 1000

/-- `tokenStore.get(token)`. -/
def storeGet : CsrfStore → String → Option Int
  | [], _ => none
  | (t, e) :: rest, token => if t = token then some e else storeGet rest token

/-- `tokenStore.delete(token)` (a `Map` holds at most one binding per key). -/
def storeDelete : CsrfStore → String → CsrfStore
  | [], _ => []
  | (t, e) :: rest, token =>
    if t = token then storeDelete rest token else (t, e) :: storeDelete rest token

/-- `tokenStore.set(token, expires)`. -/
def storeSet : CsrfStore → String → Int → CsrfStore
  | [], token, e => [(token, e)]
  | (t, e') :: rest, token, e =>
    if t = token then (token, e) :: rest else (t, e') :: storeSet rest token e

/-- Shallow embedding of the store effect of `generateCsrfToken`
(`src/security/csrf.js` lines 39–51): the fresh random token `t` is stored
with expiry `now + TOKEN_EXPIRY_MS`.  The randomized opportunistic cleanup
only deletes already-expired tokens and is modeled as not firing. -/
def generateCsrfToken (store : CsrfStore) (now : Int) (t : String) : CsrfStore :=
  storeSet store t (now + TOKEN_EXPIRY_MS)

/-- Shallow embedding of `validateCsrfToken` (`src/security/csrf.js` lines
58–76).  The global `tokenStore` and `Date.now()` are explicit; the result is
the returned boolean paired with the store after the call.  `!token ||
typeof token !== 'string'` rejects a missing, non-string or empty token; a
stored falsy expiry (`0`) is also rejected by `if (!expires)` without
deletion. -/
def validateCsrfToken (store : CsrfStore) (now : Int) (token : Value) : Bool × CsrfStore :=
  match token with
  | .vstr s =>
    if s = "" then (false, store)
    else
      match storeGet store s with
      | none => (false, store)
      | some e =>
        if e = 0 then (false, store)
        else if now > e then (false, storeDelete store s)
        else (true, storeDelete store s)
  | _ => (false, store)

theorem storeGet_storeDelete (store : CsrfStore) (t : String) :
    storeGet (storeDelete store t) t = none := by
  induction store with
  | nil => simp [storeDelete, storeGet]
  | cons p rest ih =>
      obtain ⟨t', e⟩ := p
      by_cases h : t' = t
      · simpa [storeDelete, h] using ih
      · simpa [storeDelete, storeGet, h] using ih

/-! ## Rate limiter (`src/services/rateLimiterService.js`) -/

/-- The result object of `rateLimitFormSubmission`, restricted to the fields
relevant to the claims (`windowMs`/`maxRequests` echoes omitted). -/
structure RLResult where
  allowed : Bool
  retryAfter : Option Int
  limitType : Option String
  message : Option String

/-- JS `Array.prototype.sort()` with no comparator sorts by the string order
of the elements' decimal representations (for 13-digit epoch-millisecond
timestamps this coincides with numeric order).  The proofs below only use
that the result is a permutation of the input. -/
def jsDefaultSort (l : List Int) : List Int :=
  l.mergeSort (fun a b => decide (toString a ≤ toString b))

/-- `Math.ceil(a / b)` for an integer `a` and positive integer `b`. -/
def ceilDivJs (a b : Int) : Int := (a + b - 1) / b

/-- Shallow embedding of the email-keyed window of `rateLimitFormSubmission`
(`src/services/rateLimiterService.js` lines 160–224) for one fixed
`email:<email>:<formType>` key, invoked with no `clientAddress` so that the
IP-based check is skipped, and with no custom `message` option.
`timestamps` is the stored list for the key; the result is paired with the
updated stored list (the current timestamp is appended before the window is
checked, also on rejected calls). -/
def rateLimitFormSubmission (timestamps : List Int) (now : Int)
    (maxRequests : Nat) (windowMs : Int) : RLResult × List Int :=
  let ts := timestamps ++ [now]
  let inWindow := ts.filter (fun t => decide (now - t < windowMs))
  if inWindow.length > maxRequests then
    let oldest := (jsDefaultSort inWindow).headD 0
    let retryAfter := ceilDivJs (windowMs - (now - oldest)) 1000
    let msg :=
      if retryAfter < 60 then
        "Rate limit exceeded. Please try again in " ++ toString retryAfter ++ " seconds."
      else if retryAfter < 3600 then
        "Rate limit exceeded. Please try again in " ++
          toString (ceilDivJs retryAfter 60) ++ " minutes."
      else
        "Rate limit exceeded. Please try again in " ++
          toString (ceilDivJs retryAfter 3600) ++ " hours."
    (⟨false, some retryAfter, some "email", some msg⟩, ts)
  else
    (⟨true, none, none, none⟩, ts)

/-- The stored timestamp list after a sequence of calls for the same key. -/
def runCalls (timestamps : List Int) (calls : List Int)
    (maxRequests : Nat) (windowMs : Int) : List Int :=
  calls.foldl (fun st t => (rateLimitFormSubmission st t maxRequests windowMs).2) timestamps

theorem rateLimitFormSubmission_snd (st : List Int) (t : Int) (m : Nat) (w : Int) :
    (rateLimitFormSubmission st t m w).2 = st ++ [t] := by
  simp only [rateLimitFormSubmission]
  split <;> rfl

theorem runCalls_eq_append (calls : List Int) (st : List Int) (m : Nat) (w : Int) :
    runCalls st calls m w = st ++ calls := by
  induction calls generalizing st with
  | nil => simp [runCalls]
  | cons c rest ih =>
      simp only [runCalls, List.foldl_cons] at *
      rw [rateLimitFormSubmission_snd, ih]
      simp

/-! ## Zod schema embedding

Only the zod combinators that `buildValidationSchemas` actually uses are
embedded: `z.string()` with `email`/`url`/`min`/`max` checks, `z.number()`,
the checkbox union `z.union([z.literal('on'), z.literal(true)]).refine(...)`,
`z.instanceof(File)` with the two size/type refinements, `z.array(...).max(...)`,
`.optional()` and `z.object(...)` (default "strip" mode). -/

/-- A chained check on `z.string()`. -/
inductive StrCheck where
  | email (msg : String)
  | url (msg : String)
  | min (n : ℚ) (msg : String)
  | max (n : ℚ) (msg : String)

/-- zod's email format test lives inside the zod dependency (a fixed regex);
it is abstracted as requiring an `@`.  No claim depends on the exact format
predicate. -/
def emailFormatOk (s : String) : Bool := s.contains '@'

/-- zod's URL test (`new URL(s)` succeeding) is likewise abstracted.  No claim
depends on it. -/
def urlFormatOk (s : String) : Bool := (s.splitOn "://").length > 1

/-- The zod schemas produced by `buildValidationSchemas`. -/
inductive ZSchema where
  | zstring (checks : List StrCheck)
  | znumber
  | zcheckbox (refineMsg : String)
  | zfile (maxSize : ℚ) (sizeMsg : String) (accepted : List Value) (typeMsg : String)
  | zarray (elem : ZSchema) (maxLen : ℚ) (maxMsg : String)
  | zoptional (inner : ZSchema)
  | zobject (shape : List (String × ZSchema))

/-- A zod issue: (path, message). -/
abbrev ZIssues := List (List String × String)

/-- zod's `getParsedType`, as used in `invalid_type` messages. -/
def jsTypeName : Value → String
  | .vundefined => "undefined"
  | .vnull => "null"
  | .vbool _ => "boolean"
  | .vnum _ => "number"
  | .vstr _ => "string"
  | .vfun _ => "function"
  | .vfile _ _ _ => "object"
  | .varr _ => "array"
  | .vobj _ => "object"

/-- Issues produced by the chained string checks, in chain order (zod collects
all failing checks, it does not stop at the first). -/
def strIssues : List StrCheck → String → ZIssues
  | [], _ => []
  | c :: rest, s =>
    (match c with
     | .email msg => if emailFormatOk s then [] else [([], msg)]
     | .url msg => if urlFormatOk s then [] else [([], msg)]
     | .min n msg => if (s.length : ℚ) < n then [([], msg)] else []
     | .max n msg => if (s.length : ℚ) > n then [([], msg)] else []) ++ strIssues rest s

/-- `accepted.includes(mime)` where `accepted` is the configured array value
(SameValueZero equality; only string elements can match a MIME string). -/
def jsIncludesStr (accepted : List Value) (mime : String) : Bool :=
  accepted.any (fun a => match a with | .vstr s => s = mime | _ => false)

mutual

/-- `schema.safeParse(v)`: the parsed output on success, the issue list on
failure.  Semantics per combinator, following zod v3:
`z.string()`/`z.number()` reject a missing value with "Required" and a
wrongly-typed one with an `invalid_type` message; the checkbox union accepts
exactly the literal `'on'` and the literal `true` — on union failure zod
reports the generic `invalid_union` message "Invalid input"; the attached
`.refine` runs only after the union succeeds, and its predicate
(`value === 'on' || value === true`) then always holds, so the configured
refine message can never surface; `z.instanceof(File)` rejects non-files
fatally (refinements skipped) and otherwise collects the size and type
refinement issues; `z.array` collects the `max` issue and the element issues
(element paths prefixed with the index); `.optional()` passes `undefined`
through; `z.object` in default strip mode parses the declared shape keys,
keeps a key in the output only if it is present in the input, and drops
unknown keys. -/
def zparse : ZSchema → Value → Except ZIssues Value
  | .zstring checks, v =>
    match v with
    | .vstr s =>
      match strIssues checks s with
      | [] => .ok (.vstr s)
      | issues => .error issues
    | .vundefined => .error [([], "Required")]
    | other => .error [([], "Expected string, received " ++ jsTypeName other)]
  | .znumber, v =>
    match v with
    | .vnum q => .ok (.vnum q)
    | .vundefined => .error [([], "Required")]
    | other => .error [([], "Expected number, received " ++ jsTypeName other)]
  | .zcheckbox _, v =>
    match v with
    | .vstr s => if s = "on" then .ok (.vstr s) else .error [([], "Invalid input")]
    | .vbool b => if b then .ok (.vbool b) else .error [([], "Invalid input")]
    | _ => .error [([], "Invalid input")]
  | .zfile maxSize sizeMsg accepted typeMsg, v =>
    match v with
    | .vfile n m sz =>
      match (if sz ≤ maxSize then [] else [(([] : List String), sizeMsg)]) ++
            (if jsIncludesStr accepted m then [] else [([], typeMsg)]) with
      | [] => .ok (.vfile n m sz)
      | issues => .error issues
    | _ => .error [([], "Input not instance of File")]
  | .zarray elem maxLen maxMsg, v =>
    match v with
    | .varr es =>
      let maxIssues : ZIssues :=
        if (es.length : ℚ) > maxLen then [([], maxMsg)] else []
      let r := zparseElems elem es 0
      match maxIssues ++ r.2 with
      | [] => .ok (.varr r.1)
      | issues => .error issues
    | .vundefined => .error [([], "Required")]
    | other => .error [([], "Expected array, received " ++ jsTypeName other)]
  | .zoptional inner, v =>
    match v with
    | .vundefined => .ok .vundefined
    | _ => zparse inner v
  | .zobject shape, v =>
    match v with
    | .vobj fs =>
      let r := zparseShape shape fs
      match r.2 with
      | [] => .ok (.vobj r.1)
      | issues => .error issues
    | .vundefined => .error [([], "Required")]
    | other => .error [([], "Expected object, received " ++ jsTypeName other)]

/-- Element-wise array parsing: parsed elements and accumulated issues with
index-prefixed paths. -/
def zparseElems (elem : ZSchema) (es : List Value) (i : Nat) : List Value × ZIssues :=
  match es with
  | [] => ([], [])
  | v :: rest =>
    let r := zparse elem v
    let rr := zparseElems elem rest (i + 1)
    match r with
    | .ok pv => (pv :: rr.1, rr.2)
    | .error iss => (v :: rr.1, iss.map (fun p => (toString i :: p.1, p.2)) ++ rr.2)

/-- Shape-wise object parsing: output fields (a key appears only when present
in the input and successfully parsed) and accumulated issues with
key-prefixed paths. -/
def zparseShape (shape : List (String × ZSchema)) (fs : List (String × Value)) :
    List (String × Value) × ZIssues :=
  match shape with
  | [] => ([], [])
  | (k, sch) :: rest =>
    let rr := zparseShape rest fs
    match getKey fs k with
    | some v =>
      match zparse sch v with
      | .ok pv => ((k, pv) :: rr.1, rr.2)
      | .error iss => (rr.1, iss.map (fun p => (k :: p.1, p.2)) ++ rr.2)
    | none =>
      match zparse sch .vundefined with
      | .ok _ => (rr.1, rr.2)
      | .error iss => (rr.1, iss.map (fun p => (k :: p.1, p.2)) ++ rr.2)

end

/-! ## Configuration-driven schema building (`src/config/index.js`) -/

/-- JS property read `v[k]` on the (merged, object-valued) configuration:
`undefined` when missing or when `v` is not an object. -/
def oget (v : Value) (k : String) : Value :=
  match v with
  | .vobj fs => (getKey fs k).getD .vundefined
  | _ => .vundefined

/-- `Object.entries(v)` for the object values iterated by the builder
(`fieldConfigs`, `categories`); the merged configuration always provides
objects here. -/
def entriesOf (v : Value) : List (String × Value) :=
  match v with
  | .vobj fs => fs
  | _ => []

/-- The elements of an array value (`categoryConfig.fields`). -/
def elemsOf (v : Value) : List Value :=
  match v with
  | .varr es => es
  | _ => []

/-- A zod message argument (always a string in the shipped configuration). -/
def msgString (v : Value) : String :=
  match v with
  | .vstr s => s
  | _ => ""

/-- A numeric configuration value (`maxFileSize`, `maxlength`). -/
def numOf (v : Value) : ℚ :=
  match v with
  | .vnum q => q
  | _ => 0

/-- JS number-to-string for template literals (integral numbers print without
a fractional part). -/
def jsNumToString (q : ℚ) : String :=
  if q.den = 1 then toString q.num else toString q

/-- `errorMessages.required(fieldName)`: the default configuration's
`required` is the template  field => `Please provide your ${field}`.  An
application-overridden function value is opaque to the model and is modeled
by the same template (no claim exercises an overridden `required`). -/
def requiredFnMsg (fieldName : String) : String :=
  "Please provide your " ++ fieldName

/-- `errorMessages[fieldName] || errorMessages.required(fieldName)`.
Per-field message values in the shipped configuration are non-empty strings;
a truthy non-string message does not occur. -/
def fieldMsg (em : Value) (fieldName : String) : String :=
  match oget em fieldName with
  | .vstr s => if s = "" then requiredFnMsg fieldName else s
  | _ => requiredFnMsg fieldName

/-- `fieldConfig.type || 'text'` used as the schema-builder lookup key:
a falsy `type` falls back to `'text'`; a truthy non-string value would miss
every builder (and every later `includes` test), which the marker key
`"(non-string)"` reproduces. -/
def effectiveType (fieldConfig : Value) : String :=
  match oget fieldConfig "type" with
  | .vstr s => if s = "" then "text" else s
  | v => if v.truthy then "(non-string)" else "text"

/-- The `schemaBuilders` lookup table (with the `|| schemaBuilders.text`
fallback for unknown types). -/
def schemaBuilder (em : Value) (type fieldName : String) : ZSchema :=
  if type = "email" then .zstring [.email (msgString (oget em "email"))]
  else if type = "tel" then .zstring []
  else if type = "checkbox" then .zcheckbox (fieldMsg em fieldName)
  else if type = "select" then .zstring []
  else if type = "url" then .zstring [.url "Please enter a valid URL"]
  else if type = "textarea" then .zstring []
  else if type = "text" then .zstring []
  else if type = "date" then .zstring []
  else if type = "time" then .zstring []
  else .zstring []

/-- `schema.min(n, msg)`; only ever applied to string schemas (the checkbox
type is excluded by the guard in the builder). -/
def zmin (s : ZSchema) (n : ℚ) (msg : String) : ZSchema :=
  match s with
  | .zstring cs => .zstring (cs ++ [.min n msg])
  | other => other

/-- `schema.max(n, msg)`; only ever applied to string schemas (guarded by the
textual-type list). -/
def zmax (s : ZSchema) (n : ℚ) (msg : String) : ZSchema :=
  match s with
  | .zstring cs => .zstring (cs ++ [.max n msg])
  | other => other

/-- The per-field schema assembly step of `buildValidationSchemas`
(`src/config/index.js` lines 221–237). -/
def buildFieldSchema (em : Value) (fieldName : String) (fieldConfig : Value) : ZSchema :=
  let type := effectiveType fieldConfig
  let schema := schemaBuilder em type fieldName
  let schema :=
    if (oget fieldConfig "required").truthy && type ≠ "checkbox" then
      zmin schema 1 (fieldMsg em fieldName)
    else schema
  let ml := oget fieldConfig "maxlength"
  if ml.truthy && (["email", "tel", "text", "textarea", "url"] : List String).contains type then
    zmax schema (numOf ml) ("Maximum " ++ jsNumToString (numOf ml) ++ " characters")
  else schema

/-- The element shape of the attachment array:
`{file, name?, type?, size?, preview?}`. -/
def attachShape (maxSize : ℚ) (sizeMsg : String) (accepted : List Value)
    (typeMsg : String) : List (String × ZSchema) :=
  [("file", .zfile maxSize sizeMsg accepted typeMsg),
   ("name", .zoptional (.zstring [])),
   ("type", .zoptional (.zstring [])),
   ("size", .zoptional .znumber),
   ("preview", .zoptional (.zstring []))]

/-- The element schema of the attachment array:
`z.object({file, name?, type?, size?, preview?})`. -/
def attachEntrySchema (maxSize : ℚ) (sizeMsg : String) (accepted : List Value)
    (typeMsg : String) : ZSchema :=
  .zobject (attachShape maxSize sizeMsg accepted typeMsg)

/-- The fixed attachment schema (`src/config/index.js` lines 240–248): the
size bound and the accepted MIME set come from `fileSettings`, the messages
from `errorMessages`, but the array-length bound is the literal `3`. -/
def attachmentsSchema (config : Value) : ZSchema :=
  let fileSettings := oget config "fileSettings"
  let em := oget config "errorMessages"
  .zoptional (.zarray
    (attachEntrySchema (numOf (oget fileSettings "maxFileSize"))
      (msgString (oget em "fileSize"))
      (elemsOf (oget fileSettings "acceptedImageTypes"))
      (msgString (oget em "fileType")))
    3 (msgString (oget em "maxFiles")))

/-- The combined-shape accumulation for one category
(`src/config/index.js` lines 251–257): starts from
`{ attachments: schemas.attachments }` and adds, in declared order, every
listed field that has a schema. -/
def categoryShape (fieldSchemas : List (String × ZSchema)) (attachments : ZSchema)
    (fieldsVal : Value) : List (String × ZSchema) :=
  (elemsOf fieldsVal).foldl
    (fun acc fv =>
      match fv with
      | .vstr fieldName =>
        match getKey fieldSchemas fieldName with
        | some s => setKey acc fieldName s
        | none => acc
      | _ => acc)
    [("attachments", attachments)]

/-- The derived schema set (`{fields, categories, complete}`). -/
structure Schemas where
  fields : List (String × ZSchema)
  categories : List (String × ZSchema)
  complete : ZSchema

/-- Shallow embedding of `buildValidationSchemas` (`src/config/index.js`
lines 201–268), operating on the merged configuration object. -/
def buildValidationSchemas (config : Value) : Schemas :=
  let fieldConfigs := oget config "fieldConfigs"
  let em := oget config "errorMessages"
  let fieldSchemas := (entriesOf fieldConfigs).foldl
    (fun acc p => setKey acc p.1 (buildFieldSchema em p.1 p.2)) []
  let attachments := attachmentsSchema config
  let fieldSchemas := setKey fieldSchemas "attachments" attachments
  let categorySchemas := (entriesOf (oget config "categories")).foldl
    (fun acc p =>
      setKey acc p.1 (.zobject (categoryShape fieldSchemas attachments (oget p.2 "fields"))))
    []
  ⟨fieldSchemas, categorySchemas, .zobject fieldSchemas⟩

/-! ## The attached `formDataParser` (`src/config/index.js` lines 70–114) -/

/-- The `{data, errors}` result of the parser; `errors` maps a joined issue
path to its message. -/
structure ParsedForm where
  data : Value
  errors : List (String × String)

/-- One attachment entry `{file, name, type, size}` built from a
`formData.getAll('attachments[]')` element (property reads on a non-`File`
value give `undefined`). -/
def fileEntry (f : Value) : Value :=
  match f with
  | .vfile n m sz =>
    .vobj [("file", .vfile n m sz), ("name", .vstr n), ("type", .vstr m), ("size", .vnum sz)]
  | other => .vobj [("file", other), ("name", .vundefined), ("type", .vundefined), ("size", .vundefined)]

/-- `issue.path.join('.')`. -/
def joinPath (path : List String) : String :=
  String.intercalate "." path

/-- The property names every plain object inherits from `Object.prototype`.
Reading any of them on the plain `schemas.categories` object without an own
binding yields a truthy non-schema value: a built-in function, or for
`__proto__` the prototype object itself. -/
def objectPrototypeKeys : List String :=
  ["constructor", "hasOwnProperty", "isPrototypeOf", "propertyIsEnumerable",
   "toLocaleString", "toString", "valueOf", "__proto__",
   "__defineGetter__", "__defineSetter__", "__lookupGetter__", "__lookupSetter__"]

/-- The possible results of the JS property read
`schemas.categories[category]` on the plain category-schema object: an own
binding (a real schema), a truthy value inherited from `Object.prototype`,
or `undefined`. -/
inductive JsLookup where
  | found (s : ZSchema)
  | inherited
  | absent

/-- The property read `schemas.categories[slug]`, prototype chain included:
an own key shadows the prototype; otherwise an `Object.prototype` member name
yields the inherited (truthy, non-schema) value. -/
def lookupCategorySchema (cats : List (String × ZSchema)) (slug : String) : JsLookup :=
  match getKey cats slug with
  | some s => .found s
  | none => if objectPrototypeKeys.contains slug then .inherited else .absent

/-- JS `a || b` on two looked-up property values: among the possible results
only `undefined` is falsy (a schema object and every inherited
`Object.prototype` member are truthy). -/
def jsOrLookup (a b : JsLookup) : JsLookup :=
  match a with
  | .absent => b
  | x => x

/-- Shallow embedding of the `formDataParser` closure attached by
`initContactFormConfig`.  `formData` is the multipart body as an ordered list
of (key, value) entries (values are strings or Files; duplicate keys allowed,
later plain assignments overwrite).  The schema selection
`schemas.categories[category] || schemas.categories.general` reads the plain
object through the prototype chain: a slug naming an `Object.prototype`
member yields a truthy inherited value, which is then selected instead of the
`general` fallback; `selected.safeParse` is a function only for a real schema
object, so for an inherited value — or when both reads are `undefined` — the
call throws and the surrounding `catch` yields the `_form` error. -/
def formDataParser (schemas : Schemas) (formData : List (String × Value))
    (category : String) : ParsedForm :=
  match
    jsOrLookup (lookupCategorySchema schemas.categories category)
      (lookupCategorySchema schemas.categories "general") with
  | .inherited => ⟨.vobj [], [("_form", "An error occurred while processing the form data.")]⟩
  | .absent => ⟨.vobj [], [("_form", "An error occurred while processing the form data.")]⟩
  | .found schema =>
    let formDataObj := formData.foldl
      (fun acc p => if p.1 = "csrf" then acc else setKey acc p.1 p.2) []
    let atts := formData.filterMap
      (fun p => if p.1 = "attachments[]" then some p.2 else none)
    let formDataObj :=
      if atts.length ≠ 0 then
        setKey formDataObj "attachments" (.varr (atts.map fileEntry))
      else formDataObj
    match zparse schema (.vobj formDataObj) with
    | .ok data => ⟨data, []⟩
    | .error issues =>
      ⟨.vobj formDataObj,
       issues.foldl (fun acc iss => setKey acc (joinPath iss.1) iss.2) []⟩

/-! ## Category router: `createCategoryRouter(...).handleSubmission` -/

/-- A value thrown inside the submission `try` block: the SvelteKit redirect
object from `throw redirect(303, ...)` (it carries `status` and `location`
and has no `message`), or an `Error` with a message thrown by the submission
handler. -/
inductive Thrown where
  | redirectThrown (status : Int) (location : String)
  | jsError (message : String)

/-- What `handleSubmission` produces for its caller: a propagated thrown
redirect, or the action's form payload. -/
inductive Outcome where
  | redirect (status : Int) (location : String)
  | form (data : Value) (errors : List (String × String)) (isSubmitted : Bool)

/-- Observable calls into the injected collaborators, in order. -/
inductive Ev where
  | parserCalled
  | handlerCalled

/-- The result shape of an injected form-data parser as the router consumes it
(`result.data || data`, `result.errors || {}`): either member may be absent. -/
structure RouterParseRes where
  data : Option Value
  errors : Option (List (String × String))

/-- The `createCategoryRouter` configuration fields that `handleSubmission`
reads.  `formDataParser` is the injected parser (`none` when not configured;
its result is `none` when the JS function returns a falsy value);
`submissionHandler` models `await createSubmissionHandler(locals)` followed
by the handler call, returning normally or throwing an `Error` message;
`errorHandler` may produce a custom outcome or a falsy value. -/
structure RouterCfg where
  successPath : String
  routerParser : Option (List (String × Value) → String → Option RouterParseRes)
  submissionHandler : Option (Value → String → Except String Unit)
  errorHandler : Option (Thrown → Value → String → Option Outcome)

/-- `Object.fromEntries(formData)`: later duplicate keys overwrite, first
insertion position is kept. -/
def fromEntries (formData : List (String × Value)) : Value :=
  .vobj (formData.foldl (fun acc p => setKey acc p.1 p.2) [])

/-- `haystack.includes(needle)` for strings. -/
def jsStrIncludes (haystack needle : String) : Bool :=
  (haystack.splitOn needle).length > 1

/-- The `catch (error)` block of the inner `try` around the submission
(`src` router, `handleSubmission`): it receives every value thrown inside,
including the 303 redirect object.  A redirect has no `message`, so the
reCAPTCHA test is false for it; with no custom error handler the block
returns the generic error form — the redirect is not rethrown here.  (The
outer catch's `if (error.status === 303) throw error` guard can therefore
never see the redirect: the inner catch has already swallowed it.) -/
def innerCatch (cfg : RouterCfg) (data : Value) (slug : String) (e : Thrown) : Outcome :=
  let isRecaptcha :=
    match e with
    | .jsError m => m ≠ "" && jsStrIncludes m "reCAPTCHA"
    | .redirectThrown _ _ => false
  if isRecaptcha then
    .form data [("_form", "reCAPTCHA validation failed. Please try again.")] false
  else
    match cfg.errorHandler with
    | some eh =>
      match eh e data slug with
      | some custom => custom
      | none => .form data [("_form", "An error occurred. Please try again.")] false
    | none => .form data [("_form", "An error occurred. Please try again.")] false

/-- The submission phase: build `fullData = {...data, category: slug}`, call
the handler if configured, then `throw redirect(303,
`/${lang}${successPath}?category=${slug}`)` — the thrown value (redirect or
handler error) is consumed by `innerCatch`. -/
def submitPhase (cfg : RouterCfg) (data : Value) (slug lang : String) (tr : List Ev) :
    Outcome × List Ev :=
  let fullData : Value := .vobj (setKey (spreadFields data) "category" (.vstr slug))
  let location := "/" ++ lang ++ cfg.successPath ++ "?category=" ++ slug
  let inner : Thrown × List Ev :=
    match cfg.submissionHandler with
    | some h =>
      match h fullData slug with
      | .ok _ => (.redirectThrown 303 location, tr ++ [.handlerCalled])
      | .error m => (.jsError m, tr ++ [.handlerCalled])
    | none => (.redirectThrown 303 location, tr)
  (innerCatch cfg data slug inner.1, inner.2)

/-- Shallow embedding of `handleSubmission` (category router source, lines
864–979).  The CSRF store and clock are explicit; `formData.get('csrf')`
returns the first `csrf` entry or `null`.  The outer `try/catch` is only
reachable from a throwing `await request.formData()` (malformed body), which
is outside the modeled inputs; every value thrown inside the inner `try` is
consumed by `innerCatch`, which returns normally. -/
def handleSubmission (cfg : RouterCfg) (store : CsrfStore) (now : Int)
    (formData : List (String × Value)) (slug lang : String) : Outcome × List Ev :=
  let csrfToken := (getKey formData "csrf").getD .vnull
  if !(validateCsrfToken store now csrfToken).1 then
    (.form (fromEntries formData)
      [("_form", "Invalid security token. Please try again.")] false, [])
  else
    let data0 := fromEntries formData
    let parsed : Value × List (String × String) × List Ev :=
      match cfg.routerParser with
      | some p =>
        match p formData slug with
        | some r => (r.data.getD data0, r.errors.getD [], [.parserCalled])
        | none => (data0, [], [.parserCalled])
      | none => (data0, [], [])
    match parsed.2.1 with
    | [] => submitPhase cfg parsed.1 slug lang parsed.2.2
    | e :: es => (.form parsed.1 (e :: es) false, parsed.2.2)

/-! ## Default configuration (the `defaults.js` tables) -/

/-- The ASCII apostrophe, spliced into the message strings that contain one. -/
def apos : String := (Char.ofNat 39).toString

def defaultErrorMessages : Value := .vobj
  [("required", .vfun "required"),
   ("invalid", .vfun "invalid"),
   ("select", .vfun "select"),
   ("fileSize", .vstr "File size must be less than 5MB"),
   ("fileType", .vstr "Only .jpg, .jpeg, .png, .webp and .gif files are accepted"),
   ("maxFiles", .vstr "Maximum 3 images allowed"),
   ("name", .vstr "Please provide your name"),
   ("email", .vstr "Please enter a valid email address"),
   ("message", .vstr "Please share your message with us"),
   ("coppa", .vstr ("Please confirm you" ++ apos ++ "re over 13 or have parent/teacher permission")),
   ("phone", .vstr "Please provide a contact phone number"),
   ("preferredDate", .vstr "Please select your preferred date"),
   ("preferredTime", .vstr "Please select your preferred time"),
   ("browser", .vstr ("Please tell us which browser you" ++ apos ++ "re using")),
   ("browserVersion", .vstr "Please tell us your browser version"),
   ("operatingSystem", .vstr ("Please tell us which operating system you" ++ apos ++ "re using")),
   ("company", .vstr "Please provide your company name"),
   ("businessRole", .vstr "Please tell us your role in the company"),
   ("institution", .vstr "Please provide your institution name"),
   ("educationRole", .vstr "Please tell us your role in education"),
   ("featureArea", .vstr ("Please tell us which feature area you" ++ apos ++ "re referring to")),
   ("recaptchaInit", .vstr ("We" ++ apos ++ "re having trouble with our security check. Please refresh the page and try again.")),
   ("recaptchaVerification", .vstr "Security verification failed. Please try submitting again."),
   ("recaptchaMissing", .vstr "Security verification incomplete. Please ensure JavaScript is enabled and try again.")]

def defaultFileSettings : Value := .vobj
  [("maxFileSize", .vnum 5242880),
   ("acceptedImageTypes", .varr
     [.vstr "image/jpeg", .vstr "image/jpg", .vstr "image/png",
      .vstr "image/webp", .vstr "image/gif"])]

def defaultCategories : Value := .vobj
  [("general", .vobj
     [("label", .vstr "General Inquiry"),
      ("icon", .vstr "fa fa-envelope"),
      ("fields", .varr [.vstr "name", .vstr "email", .vstr "message", .vstr "attachments", .vstr "coppa"])]),
   ("support", .vobj
     [("label", .vstr "Support Request"),
      ("icon", .vstr "fa fa-question-circle"),
      ("fields", .varr [.vstr "name", .vstr "email", .vstr "message", .vstr "browser", .vstr "browserVersion", .vstr "operatingSystem", .vstr "attachments", .vstr "coppa"])]),
   ("feedback", .vobj
     [("label", .vstr "Feedback"),
      ("icon", .vstr "fa fa-comment"),
      ("fields", .varr [.vstr "name", .vstr "email", .vstr "message", .vstr "attachments", .vstr "coppa"])]),
   ("booking", .vobj
     [("label", .vstr "Book an Appointment"),
      ("icon", .vstr "fa fa-calendar"),
      ("fields", .varr [.vstr "name", .vstr "email", .vstr "phone", .vstr "preferredDate", .vstr "preferredTime", .vstr "message", .vstr "coppa"])]),
   ("business", .vobj
     [("label", .vstr "Business Inquiry"),
      ("icon", .vstr "fa fa-briefcase"),
      ("fields", .varr [.vstr "name", .vstr "email", .vstr "company", .vstr "businessRole", .vstr "message", .vstr "coppa"])])]

def defaultFieldConfigs : Value := .vobj
  [("name", .vobj
     [("type", .vstr "text"), ("label", .vstr "Name"),
      ("placeholder", .vstr "Your name"), ("required", .vbool true),
      ("maxlength", .vnum 100)]),
   ("email", .vobj
     [("type", .vstr "email"), ("label", .vstr "Email"),
      ("placeholder", .vstr "your@email.com"), ("required", .vbool true),
      ("maxlength", .vnum 254)]),
   ("message", .vobj
     [("type", .vstr "textarea"), ("label", .vstr "Message"),
      ("placeholder", .vstr "Tell us more..."), ("required", .vbool true),
      ("rows", .vnum 5), ("maxlength", .vnum 5000)]),
   ("phone", .vobj
     [("type", .vstr "tel"), ("label", .vstr "Phone"),
      ("placeholder", .vstr "+1 (555) 123-4567"), ("required", .vbool true)]),
   ("company", .vobj
     [("type", .vstr "text"), ("label", .vstr "Company"),
      ("placeholder", .vstr "Your company name"), ("required", .vbool true)]),
   ("businessRole", .vobj
     [("type", .vstr "text"), ("label", .vstr "Role"),
      ("placeholder", .vstr "Your role"), ("required", .vbool true)]),
   ("preferredDate", .vobj
     [("type", .vstr "date"), ("label", .vstr "Preferred Date"),
      ("required", .vbool true)]),
   ("preferredTime", .vobj
     [("type", .vstr "time"), ("label", .vstr "Preferred Time"),
      ("required", .vbool true)]),
   ("browser", .vobj
     [("type", .vstr "text"), ("label", .vstr "Browser"),
      ("placeholder", .vstr "Chrome, Firefox, Safari, etc."), ("required", .vbool true)]),
   ("browserVersion", .vobj
     [("type", .vstr "text"), ("label", .vstr "Browser Version"),
      ("placeholder", .vstr "e.g., 91.0"), ("required", .vbool true)]),
   ("operatingSystem", .vobj
     [("type", .vstr "text"), ("label", .vstr "Operating System"),
      ("placeholder", .vstr "Windows 10, macOS, etc."), ("required", .vbool true)]),
   ("coppa", .vobj
     [("type", .vstr "checkbox"),
      ("label", .vstr "I confirm I am over 13 years old or have parent/teacher permission"),
      ("required", .vbool true)]),
   ("attachments", .vobj
     [("type", .vstr "file"), ("label", .vstr "Add Images (Optional)"),
      ("accept", .vstr "image/jpeg,image/jpg,image/png,image/webp,image/gif"),
      ("maxFiles", .vnum 3), ("maxSize", .vnum 5242880),
      ("required", .vbool false)])]

def defaultRecaptchaConfig : Value := .vobj
  [("enabled", .vbool false), ("provider", .vstr "google-v3"),
   ("siteKey", .vstr ""), ("secretKey", .vstr ""),
   ("minScore", .vnum (1 / 2)), ("cacheTimeout", .vnum 110000)]

def defaultApiConfig : Value := .vobj
  [("endpoint", .vstr "/api/contact"), ("timeout", .vnum 30000), ("retries", .vnum 1)]

def defaultUiConfig : Value := .vobj
  [("showSuccessMessage", .vbool true), ("successMessageDuration", .vnum 5000),
   ("showFieldErrors", .vbool true), ("focusFirstError", .vbool true),
   ("scrollToError", .vbool true), ("submitButtonText", .vstr "Send Message"),
   ("submittingButtonText", .vstr "Sending..."), ("resetAfterSubmit", .vbool true)]

def defaultI18nConfig : Value := .vobj
  [("enabled", .vbool false), ("supportedLanguages", .varr [.vstr "en"]),
   ("defaultLanguage", .vstr "en"), ("includeLanguageInURL", .vbool false),
   ("autoDetectLanguage", .vbool false),
   ("languageDetectionOrder", .varr [.vstr "url", .vstr "sessionStorage", .vstr "browser"]),
   ("persistLanguageKey", .vstr "contactform-lang")]

/-- The complete default configuration table (`defaultConfig` in the defaults
module). -/
def defaultConfig : Value := .vobj
  [("appName", .vstr "ContactForm"),
   ("formUri", .vstr "/contact"),
   ("errorMessages", defaultErrorMessages),
   ("fileSettings", defaultFileSettings),
   ("categories", defaultCategories),
   ("fieldConfigs", defaultFieldConfigs),
   ("recaptcha", defaultRecaptchaConfig),
   ("api", defaultApiConfig),
   ("ui", defaultUiConfig),
   ("i18n", defaultI18nConfig)]

/-- The configuration-merging step of `initContactFormConfig`
(`src/config/index.js` line 56): `currentConfig = deepMerge(defaultConfig,
userConfig)`.  The subsequently attached derived members (`schemas`,
`categoryToFieldMap`, `formDataParser`, `createSubmissionHandler`) are stored
under those four fixed safe key names and are modeled by
`buildValidationSchemas` and `formDataParser` above. -/
def initContactFormConfig (userConfig : Value) : Value :=
  deepMerge defaultConfig userConfig

/-! ## Claim theorems -/

/-- Own-key test on a value that should be an object. -/
def objHasKey (v : Value) (k : String) : Bool :=
  match v with
  | .vobj fs => hasKey fs k
  | _ => false

/-- C2 (code bug): the claim says `initContactFormConfig` merges with
SafeMerge semantics, skipping `__proto__`/`constructor`/`prototype` keys at
any depth of `userConfig`.  It does not: it uses the local, unfiltered
`deepMerge`, so the dangerous key of the user configuration
`{"prototype": {"polluted": true}}` is copied into the built configuration
(the repository ships `secureDeepMerge` for exactly this purpose, but
`initContactFormConfig` does not call it). -/
theorem initContactFormConfig_copies_dangerous_key :
    objHasKey (initContactFormConfig
      (.vobj [("prototype", .vobj [("polluted", .vbool true)])])) "prototype" = true ∧
    cleanDeep (initContactFormConfig
      (.vobj [("prototype", .vobj [("polluted", .vbool true)])])) = false :=
  ⟨rfl, rfl⟩

/-- C3 counterexample: the claim quantifies over all inputs including
adversarial ones, but `secureDeepMerge` starts from `{...target}`, which
copies the target's own keys unfiltered: with target
`{"constructor": 1}` and empty source, the output still carries the
dangerous own key `constructor`. -/
theorem secureDeepMerge_dangerous_target_key :
    secureDeepMerge (.vobj [("constructor", .vnum 1)]) (.vobj []) =
      .vobj [("constructor", .vnum 1)] ∧
    cleanDeep (.vobj [("constructor", .vnum 1)]) = false :=
  ⟨rfl, rfl⟩

/-- C3 (amended): for every target free of dangerous keys at every depth and
every source whose array values are free of dangerous keys, the object
returned by `secureDeepMerge(target, source)` contains no own key named
`__proto__`, `constructor` or `prototype` at any depth: dangerous
plain-object keys of the source are skipped at every recursion depth, not
just the top level.  (The amendment is forced by the counterexample: keys
already present in the target — and keys inside array values, which are
copied wholesale — are not filtered.) -/
theorem secureDeepMerge_no_dangerous_keys (t s : Value)
    (ht : cleanDeep t = true) (hs : arraysClean s = true) :
    cleanDeep (secureDeepMerge t s) = true :=
  cleanDeep_secureDeepMerge t s ht hs

/-- Witness for C3: a nested adversarial source key `__proto__` is skipped. -/
theorem secureDeepMerge_no_dangerous_keys_witness :
    cleanDeep (secureDeepMerge
      (.vobj [("a", .vnum 1), ("nested", .vobj [("x", .vstr "y")])])
      (.vobj [("nested", .vobj [("__proto__", .vobj [("polluted", .vbool true)]),
                                ("ok", .vstr "kept")]),
              ("constructor", .vobj [("evil", .vbool true)])])) = true :=
  secureDeepMerge_no_dangerous_keys _ _ rfl rfl

/-- C5: `validateCsrfToken` is single-use over the token store: a stored,
unexpired token (`now ≤ expires`) validates to `true` and is deleted, so a
second validation of the same token returns `false`; a stored token whose
expiry has passed (`expires < now`) is deleted and rejected; an unknown token
is rejected with the store unchanged.  (`expires ≠ 0` reflects that a stored
expiry is a positive epoch timestamp; a zero expiry would be caught by the
falsy test `if (!expires)`.) -/
theorem validateCsrfToken_single_use (store : CsrfStore) (t : String) (e : Int)
    (now now2 now3 : Int) (hne : t ≠ "") (hez : e ≠ 0) :
    (storeGet store t = some e → now ≤ e →
      validateCsrfToken store now (.vstr t) = (true, storeDelete store t) ∧
      validateCsrfToken (storeDelete store t) now2 (.vstr t) = (false, storeDelete store t)) ∧
    (storeGet store t = some e → e < now →
      validateCsrfToken store now (.vstr t) = (false, storeDelete store t)) ∧
    (storeGet store t = none →
      validateCsrfToken store now3 (.vstr t) = (false, store)) := by
  refine ⟨fun hget hle => ⟨?_, ?_⟩, fun hget hlt => ?_, fun hget => ?_⟩
  · simp [validateCsrfToken, hne, hget, hez, not_lt.mpr hle]
  · simp [validateCsrfToken, hne, storeGet_storeDelete]
  · simp [validateCsrfToken, hne, hget, hez, hlt]
  · simp [validateCsrfToken, hne, hget]

/-- Witness for C5: the three behaviours at concrete stores and times. -/
theorem validateCsrfToken_single_use_witness :
    (validateCsrfToken [("tok", 10)] 5 (.vstr "tok") = (true, []) ∧
     validateCsrfToken [] 6 (.vstr "tok") = (false, [])) ∧
    validateCsrfToken [("tok", 10)] 11 (.vstr "tok") = (false, []) ∧
    validateCsrfToken [("other", 10)] 7 (.vstr "tok") = (false, [("other", 10)]) := by
  refine ⟨?_, ?_, ?_⟩
  · exact (validateCsrfToken_single_use [("tok", 10)] "tok" 10 5 6 0
      (by decide) (by decide)).1 rfl (by norm_num)
  · exact (validateCsrfToken_single_use [("tok", 10)] "tok" 10 11 0 0
      (by decide) (by decide)).2.1 rfl (by norm_num)
  · exact (validateCsrfToken_single_use [("other", 10)] "tok" 10 0 0 7
      (by decide) (by decide)).2.2 rfl

theorem rateLimitFormSubmission_blocked (st : List Int) (now : Int) (m : Nat) (w : Int)
    (h : ((st ++ [now]).filter (fun t => decide (now - t < w))).length > m) :
    (rateLimitFormSubmission st now m w).1.allowed = false ∧
    (rateLimitFormSubmission st now m w).1.retryAfter =
      some (ceilDivJs
        (w - (now - (jsDefaultSort
          ((st ++ [now]).filter (fun t => decide (now - t < w)))).headD 0)) 1000) := by
  constructor <;>
    · simp only [rateLimitFormSubmission]
      rw [if_pos h]

theorem rateLimitFormSubmission_allowed (st : List Int) (now : Int) (m : Nat) (w : Int)
    (h : ¬ ((st ++ [now]).filter (fun t => decide (now - t < w))).length > m) :
    (rateLimitFormSubmission st now m w).1.allowed = true := by
  simp only [rateLimitFormSubmission]
  rw [if_neg h]

/-- C6: for a fixed email identifier and form type with options
`{maxRequests, windowMs}` (a positive request budget and window), calling
`rateLimitFormSubmission` `maxRequests + 1` times within `windowMs` yields
`allowed: false` with `retryAfter > 0` on the `(maxRequests + 1)`-th call,
and a subsequent call made after `windowMs` has elapsed since all prior calls
yields `allowed: true`.  (`prior` are the first `maxRequests` call times,
`now` the blocked call, `later` the call after the window; the stored
timestamp list after the first `maxRequests` calls is exactly `prior`, by
`runCalls`.) -/
theorem rateLimitFormSubmission_window_claim (prior : List Int) (now later : Int)
    (maxRequests : Nat) (windowMs : Int)
    (hmax : 1 ≤ maxRequests) (hw : 0 < windowMs)
    (hcount : prior.length = maxRequests)
    (hwin : ∀ t ∈ prior, now - t < windowMs)
    (hlater : ∀ t ∈ prior ++ [now], windowMs ≤ later - t) :
    (rateLimitFormSubmission (runCalls [] prior maxRequests windowMs)
        now maxRequests windowMs).1.allowed = false ∧
    (∃ ra, (rateLimitFormSubmission (runCalls [] prior maxRequests windowMs)
        now maxRequests windowMs).1.retryAfter = some ra ∧ 0 < ra) ∧
    (rateLimitFormSubmission
        (rateLimitFormSubmission (runCalls [] prior maxRequests windowMs)
          now maxRequests windowMs).2
        later maxRequests windowMs).1.allowed = true := by
  have hstore : runCalls [] prior maxRequests windowMs = prior := by
    simpa using runCalls_eq_append prior [] maxRequests windowMs
  rw [hstore]
  have hAll : ∀ t ∈ prior ++ [now], now - t < windowMs := by
    intro a ha
    rcases List.mem_append.mp ha with h | h
    · exact hwin a h
    · simp only [List.mem_singleton] at h
      subst h
      simpa using hw
  have hfil1 : (prior ++ [now]).filter (fun t => decide (now - t < windowMs)) =
      prior ++ [now] :=
    List.filter_eq_self.mpr (fun a ha => decide_eq_true (hAll a ha))
  have hlen1 : ((prior ++ [now]).filter (fun t => decide (now - t < windowMs))).length >
      maxRequests := by
    rw [hfil1]
    simp [hcount]
  have hblocked := rateLimitFormSubmission_blocked prior now maxRequests windowMs hlen1
  refine ⟨hblocked.1, ?_, ?_⟩
  · refine ⟨_, hblocked.2, ?_⟩
    have hmem : (jsDefaultSort
        ((prior ++ [now]).filter (fun t => decide (now - t < windowMs)))).headD 0 ∈
        prior ++ [now] := by
      rw [hfil1]
      rcases hS : jsDefaultSort (prior ++ [now]) with _ | ⟨a, as⟩
      · exfalso
        have hperm := List.mergeSort_perm (prior ++ [now])
          (fun a b => decide (toString a ≤ toString b))
        rw [show List.mergeSort (prior ++ [now])
            (fun a b => decide (toString a ≤ toString b)) =
            jsDefaultSort (prior ++ [now]) from rfl, hS] at hperm
        have := hperm.symm.eq_nil
        simp at this
      · have ha : a ∈ jsDefaultSort (prior ++ [now]) := by
          rw [hS]
          exact List.mem_cons_self a as
        have ha2 : a ∈ prior ++ [now] := by
          simpa [jsDefaultSort] using ha
        simpa [hS] using ha2
    have hlt := hAll _ hmem
    simp only [ceilDivJs]
    omega
  · have hsnd : (rateLimitFormSubmission prior now maxRequests windowMs).2 =
        prior ++ [now] := rateLimitFormSubmission_snd prior now maxRequests windowMs
    rw [hsnd]
    apply rateLimitFormSubmission_allowed
    have hfil2 : ((prior ++ [now]) ++ [later]).filter
        (fun t => decide (later - t < windowMs)) = [later] := by
      rw [List.filter_append]
      have h1 : (prior ++ [now]).filter (fun t => decide (later - t < windowMs)) = [] :=
        List.filter_eq_nil_iff.mpr (fun a ha => by
          simpa using not_lt.mpr (hlater a ha))
      have h2 : [later].filter (fun t => decide (later - t < windowMs)) = [later] := by
        simp [hw]
      rw [h1, h2]
      rfl
    rw [hfil2]
    simp only [List.length_singleton]
    omega

/-- Witness for C6: budget 1 per 1000 ms; calls at 0 and 1 (second blocked
with positive `retryAfter`), then a call at 1001 is allowed. -/
theorem rateLimitFormSubmission_window_claim_witness :
    (rateLimitFormSubmission (runCalls [] [0] 1 1000) 1 1 1000).1.allowed = false ∧
    (∃ ra, (rateLimitFormSubmission (runCalls [] [0] 1 1000) 1 1 1000).1.retryAfter =
      some ra ∧ 0 < ra) ∧
    (rateLimitFormSubmission
      (rateLimitFormSubmission (runCalls [] [0] 1 1000) 1 1 1000).2
      1001 1 1000).1.allowed = true :=
  rateLimitFormSubmission_window_claim [0] 1 1001 1 1000 (by decide) (by decide) rfl
    (by
      intro t ht
      simp only [List.mem_singleton] at ht
      subst ht
      decide)
    (by
      intro t ht
      simp only [List.mem_append, List.mem_singleton] at ht
      rcases ht with h | h <;>
        · subst h
          decide)

/-- A router configuration for exercising the fully-successful submission
path: a parser that validates successfully (no errors) and a submission
handler that completes successfully; no custom error handler. -/
def happyPathCfg : RouterCfg :=
  ⟨"/contact/success",
   some (fun _ _ => some ⟨some (.vobj [("name", .vstr "Jo")]), some []⟩),
   some (fun _ _ => .ok ()),
   none⟩

/-- C1 (code bug): for a submission in which the CSRF token validates, the
parser reports no per-field errors and the submission handler completes
successfully, the claim (and the outer catch's own "Don't catch redirects"
guard, which tests `error.status === 303`) expects `handleSubmission` to
propagate the thrown 303 redirect to
`/<lang><successPath>?category=<slug>`.  Instead the inner catch around the
submission — which has no redirect guard — receives the thrown redirect,
finds no `message` on it and no custom error handler, and returns the
generic error payload: the redirect never escapes. -/
theorem handleSubmission_swallows_redirect :
    handleSubmission happyPathCfg [("tok", 100)] 50
      [("csrf", .vstr "tok"), ("name", .vstr "Jo")] "general" "en" =
      (.form (.vobj [("name", .vstr "Jo")])
        [("_form", "An error occurred. Please try again.")] false,
       [.parserCalled, .handlerCalled]) :=
  rfl

/-- C4: `handleSubmission` fails closed.  (a) If the `csrf` field is missing
or fails validation, the result is the error form with message
"Invalid security token. Please try again." and the submitted data echoed
back, and neither the parser nor the submission handler is invoked (empty
event trace — processing does not proceed to parsing).  (b) If the token
validates but the configured parser reports per-field errors, the result is
the error form with `{data, errors}` and the submission handler is never
invoked (the trace contains only the parser call). -/
theorem handleSubmission_fails_closed (cfg : RouterCfg) (store : CsrfStore) (now : Int)
    (formData : List (String × Value)) (slug lang : String) :
    ((validateCsrfToken store now ((getKey formData "csrf").getD .vnull)).1 = false →
      handleSubmission cfg store now formData slug lang =
        (.form (fromEntries formData)
          [("_form", "Invalid security token. Please try again.")] false, [])) ∧
    (∀ p r e es, cfg.routerParser = some p →
      (validateCsrfToken store now ((getKey formData "csrf").getD .vnull)).1 = true →
      p formData slug = some r → r.errors = some (e :: es) →
      handleSubmission cfg store now formData slug lang =
        (.form (r.data.getD (fromEntries formData)) (e :: es) false, [.parserCalled])) := by
  constructor
  · intro hcsrf
    simp [handleSubmission, hcsrf]
  · intro p r e es hp hcsrf hpr herr
    simp [handleSubmission, hcsrf, hp, hpr, herr]

/-- Witness for C4: (a) an unknown token is rejected with the echoed data and
no collaborator calls; (b) a parser error (empty required `name`) returns the
error form without invoking the handler. -/
theorem handleSubmission_fails_closed_witness :
    (handleSubmission happyPathCfg [] 0
      [("csrf", .vstr "bad"), ("name", .vstr "A")] "general" "en" =
      (.form (fromEntries [("csrf", .vstr "bad"), ("name", .vstr "A")])
        [("_form", "Invalid security token. Please try again.")] false, [])) ∧
    (handleSubmission
      ⟨"/contact/success",
       some (fun _ _ => some ⟨some (.vobj [("name", .vstr "")]),
         some [("name", "Please provide your name")]⟩),
       some (fun _ _ => .ok ()), none⟩
      [("tok", 100)] 50 [("csrf", .vstr "tok"), ("name", .vstr "")] "general" "en" =
      (.form (.vobj [("name", .vstr "")])
        [("name", "Please provide your name")] false, [.parserCalled])) := by
  constructor
  · exact (handleSubmission_fails_closed happyPathCfg [] 0
      [("csrf", .vstr "bad"), ("name", .vstr "A")] "general" "en").1 rfl
  · exact (handleSubmission_fails_closed
      ⟨"/contact/success",
       some (fun _ _ => some ⟨some (.vobj [("name", .vstr "")]),
         some [("name", "Please provide your name")]⟩),
       some (fun _ _ => .ok ()), none⟩
      [("tok", 100)] 50 [("csrf", .vstr "tok"), ("name", .vstr "")] "general" "en").2
      _ ⟨some (.vobj [("name", .vstr "")]), some [("name", "Please provide your name")]⟩
      ("name", "Please provide your name") [] rfl rfl rfl rfl

/-- C8 counterexample: the built checkbox schema for the default `coppa`
field does reject `false`, but with zod's generic `invalid_union` message
"Invalid input", not with the field's configured required-message: the
configured message sits on a `.refine` that only runs after the union has
already accepted the value, so it can never surface. -/
theorem checkbox_schema_message_not_configured :
    getKey (buildValidationSchemas defaultConfig).fields "coppa" =
      some (.zcheckbox ("Please confirm you" ++ apos ++
        "re over 13 or have parent/teacher permission")) ∧
    zparse (.zcheckbox ("Please confirm you" ++ apos ++
        "re over 13 or have parent/teacher permission")) (.vbool false) =
      .error [([], "Invalid input")] ∧
    ("Invalid input" ≠ "Please confirm you" ++ apos ++
        "re over 13 or have parent/teacher permission") :=
  ⟨rfl, by simp [zparse], by decide⟩

/-- C8 (amended): for every field configured with type `checkbox`, the built
field schema is the checkbox union carrying the field's configured
required-message as its (unreachable) refine message; it accepts exactly the
literal string `"on"` and the boolean `true`, and rejects `false`, `"off"`,
`null` and the empty string — each with zod's generic union message
"Invalid input" rather than the configured required-message. -/
theorem checkbox_schema_accepts_exactly (em : Value) (fieldName : String) (fc : Value)
    (htype : effectiveType fc = "checkbox") :
    buildFieldSchema em fieldName fc = .zcheckbox (fieldMsg em fieldName) ∧
    (∀ v, zparse (buildFieldSchema em fieldName fc) v = .ok v ↔
      (v = .vstr "on" ∨ v = .vbool true)) ∧
    (∀ v, v = .vbool false ∨ v = .vstr "off" ∨ v = .vnull ∨ v = .vstr "" →
      zparse (buildFieldSchema em fieldName fc) v = .error [([], "Invalid input")]) := by
  have hb : buildFieldSchema em fieldName fc = .zcheckbox (fieldMsg em fieldName) := by
    simp [buildFieldSchema, htype, schemaBuilder]
  refine ⟨hb, ?_, ?_⟩
  · intro v
    rw [hb]
    cases v with
    | vstr s =>
        by_cases h : s = "on"
        · subst h
          simp [zparse]
        · simp [zparse, h]
    | vbool b => cases b <;> simp [zparse]
    | _ => simp [zparse]
  · intro v hv
    rw [hb]
    rcases hv with h | h | h | h <;> subst h <;> simp [zparse]

/-- Witness for C8 (amended), at the default `coppa` field. -/
theorem checkbox_schema_accepts_exactly_witness :
    buildFieldSchema (oget defaultConfig "errorMessages") "coppa"
        (oget (oget defaultConfig "fieldConfigs") "coppa") =
      .zcheckbox (fieldMsg (oget defaultConfig "errorMessages") "coppa") ∧
    (∀ v, zparse (buildFieldSchema (oget defaultConfig "errorMessages") "coppa"
        (oget (oget defaultConfig "fieldConfigs") "coppa")) v = .ok v ↔
      (v = .vstr "on" ∨ v = .vbool true)) ∧
    (∀ v, v = .vbool false ∨ v = .vstr "off" ∨ v = .vnull ∨ v = .vstr "" →
      zparse (buildFieldSchema (oget defaultConfig "errorMessages") "coppa"
        (oget (oget defaultConfig "fieldConfigs") "coppa")) v =
        .error [([], "Invalid input")]) :=
  checkbox_schema_accepts_exactly (oget defaultConfig "errorMessages") "coppa"
    (oget (oget defaultConfig "fieldConfigs") "coppa") rfl

/-! ### Helper lemmas about object/array parsing (used by the attachment
schema claim) -/

theorem getKey_setKey_self {α : Type} (fs : List (String × α)) (k : String) (v : α) :
    getKey (setKey fs k v) k = some v := by
  induction fs with
  | nil => simp [setKey, getKey]
  | cons p rest ih =>
      obtain ⟨k', v'⟩ := p
      by_cases h : k' = k
      · simp [setKey, h, getKey]
      · simp [setKey, h, getKey, ih]

/-- `schemas.attachments` is always the fixed attachment schema. -/
theorem buildValidationSchemas_attachments (config : Value) :
    getKey (buildValidationSchemas config).fields "attachments" =
      some (attachmentsSchema config) := by
  simp [buildValidationSchemas, getKey_setKey_self]

/-- The messages of an issue list. -/
def issueMsgs (iss : ZIssues) : List String := iss.map (fun p => p.2)

theorem issueMsgs_map_path (iss : ZIssues) (f : List String → List String) :
    issueMsgs (iss.map (fun p => (f p.1, p.2))) = issueMsgs iss := by
  simp [issueMsgs]

theorem zparseShape_issues_nil (shape : List (String × ZSchema)) (fs : List (String × Value))
    (h : ∀ p ∈ shape, ∃ out, zparse p.2 ((getKey fs p.1).getD .vundefined) = .ok out) :
    (zparseShape shape fs).2 = [] := by
  induction shape with
  | nil => simp [zparseShape]
  | cons p rest ih =>
      obtain ⟨k, sch⟩ := p
      obtain ⟨out, hout⟩ := h (k, sch) (List.mem_cons_self _ _)
      have hrest := ih (fun q hq => h q (List.mem_cons_of_mem _ hq))
      rcases hg : getKey fs k with _ | v
      · rw [hg] at hout
        simp only [Option.getD_none] at hout
        simp [zparseShape, hg, hout, hrest]
      · rw [hg] at hout
        simp only [Option.getD_some] at hout
        simp [zparseShape, hg, hout, hrest]

theorem zparseShape_msg_mem (shape : List (String × ZSchema)) (fs : List (String × Value))
    (k : String) (sch : ZSchema) (v : Value) (iss : ZIssues) (msg : String)
    (hmem : (k, sch) ∈ shape) (hget : getKey fs k = some v)
    (hp : zparse sch v = .error iss) (hm : msg ∈ issueMsgs iss) :
    msg ∈ issueMsgs (zparseShape shape fs).2 := by
  induction shape with
  | nil => simp at hmem
  | cons p rest ih =>
      obtain ⟨k', sch'⟩ := p
      rcases List.mem_cons.mp hmem with heq | htail
      · obtain ⟨hk, hs⟩ := Prod.mk.injEq .. ▸ heq
        subst hk
        subst hs
        simp only [zparseShape, hget, hp]
        have : msg ∈ issueMsgs (iss.map (fun p => (k :: p.1, p.2))) := by
          rw [issueMsgs_map_path]
          exact hm
        simp only [issueMsgs, List.map_append, List.mem_append] at *
        exact Or.inl this
      · have hrest := ih htail
        simp only [zparseShape]
        rcases hg : getKey fs k' with _ | v'
        · rcases hz : zparse sch' .vundefined with iss' | out
          · simp only [hg, hz, issueMsgs, List.map_append, List.mem_append]
            exact Or.inr (by simpa [issueMsgs] using hrest)
          · simp only [hg, hz]
            simpa [issueMsgs] using hrest
        · rcases hz : zparse sch' v' with iss' | out
          · simp only [hg, hz, issueMsgs, List.map_append, List.mem_append]
            exact Or.inr (by simpa [issueMsgs] using hrest)
          · simp only [hg, hz]
            simpa [issueMsgs] using hrest

theorem zparseElems_issues_nil (elem : ZSchema) (es : List Value) (i : Nat)
    (h : ∀ e ∈ es, ∃ out, zparse elem e = .ok out) :
    (zparseElems elem es i).2 = [] := by
  induction es generalizing i with
  | nil => simp [zparseElems]
  | cons e rest ih =>
      obtain ⟨out, hout⟩ := h e (List.mem_cons_self _ _)
      have hrest := ih (i + 1) (fun x hx => h x (List.mem_cons_of_mem _ hx))
      simp [zparseElems, hout, hrest]

theorem zparseElems_msg_mem (elem : ZSchema) (es : List Value) (i : Nat)
    (e : Value) (iss : ZIssues) (msg : String)
    (he : e ∈ es) (hp : zparse elem e = .error iss) (hm : msg ∈ issueMsgs iss) :
    msg ∈ issueMsgs (zparseElems elem es i).2 := by
  induction es generalizing i with
  | nil => simp at he
  | cons x rest ih =>
      rcases List.mem_cons.mp he with heq | htail
      · subst heq
        simp only [zparseElems, hp]
        have : msg ∈ issueMsgs (iss.map (fun p => (toString i :: p.1, p.2))) := by
          rw [issueMsgs_map_path]
          exact hm
        simp only [issueMsgs, List.map_append, List.mem_append] at *
        exact Or.inl this
      · have hrest := ih (i + 1) htail
        simp only [zparseElems]
        rcases hz : zparse elem x with iss' | out
        · simp only [hz, issueMsgs, List.map_append, List.mem_append]
          exact Or.inr (by simpa [issueMsgs] using hrest)
        · simp only [hz]
          simpa [issueMsgs] using hrest

/-- An optional-string member of an attachment entry (absent, `undefined`, or
a string). -/
def optStrOk : Option Value → Bool
  | none => true
  | some .vundefined => true
  | some (.vstr _) => true
  | _ => false

/-- An optional-number member of an attachment entry. -/
def optNumOk : Option Value → Bool
  | none => true
  | some .vundefined => true
  | some (.vnum _) => true
  | _ => false

/-- A well-formed attachment entry: an object whose `file` member is a `File`
within the size bound and accepted MIME set, and whose optional
`name`/`type`/`size`/`preview` members, when present, have the declared
types. -/
def okEntry (maxSize : ℚ) (accepted : List Value) (v : Value) : Bool :=
  match v with
  | .vobj fs =>
    (match getKey fs "file" with
     | some (.vfile _ m sz) => sz ≤ maxSize && jsIncludesStr accepted m
     | _ => false) &&
    optStrOk (getKey fs "name") && optStrOk (getKey fs "type") &&
    optNumOk (getKey fs "size") && optStrOk (getKey fs "preview")
  | _ => false

theorem optStrOk_parses (o : Option Value) (h : optStrOk o = true) :
    ∃ out, zparse (.zoptional (.zstring [])) (o.getD .vundefined) = .ok out := by
  cases o with
  | none => exact ⟨.vundefined, by simp [zparse]⟩
  | some v =>
    cases v with
    | vundefined => exact ⟨.vundefined, by simp [zparse]⟩
    | vstr s => exact ⟨.vstr s, by simp [zparse, strIssues]⟩
    | vnull => simp [optStrOk] at h
    | vbool b => simp [optStrOk] at h
    | vnum q => simp [optStrOk] at h
    | vfun t => simp [optStrOk] at h
    | vfile n m sz => simp [optStrOk] at h
    | varr es => simp [optStrOk] at h
    | vobj fs => simp [optStrOk] at h

theorem optNumOk_parses (o : Option Value) (h : optNumOk o = true) :
    ∃ out, zparse (.zoptional .znumber) (o.getD .vundefined) = .ok out := by
  cases o with
  | none => exact ⟨.vundefined, by simp [zparse]⟩
  | some v =>
    cases v with
    | vundefined => exact ⟨.vundefined, by simp [zparse]⟩
    | vnum q => exact ⟨.vnum q, by simp [zparse]⟩
    | vnull => simp [optNumOk] at h
    | vbool b => simp [optNumOk] at h
    | vstr s => simp [optNumOk] at h
    | vfun t => simp [optNumOk] at h
    | vfile n m sz => simp [optNumOk] at h
    | varr es => simp [optNumOk] at h
    | vobj fs => simp [optNumOk] at h

theorem attachEntry_parses (ms : ℚ) (sm : String) (acc : List Value) (tm : String)
    (v : Value) (h : okEntry ms acc v = true) :
    ∃ out, zparse (attachEntrySchema ms sm acc tm) v = .ok out := by
  cases v with
  | vobj fs =>
    simp only [okEntry, Bool.and_eq_true] at h
    obtain ⟨⟨⟨⟨h1, h2⟩, h3⟩, h4⟩, h5⟩ := h
    rcases hf : getKey fs "file" with _ | vf
    · rw [hf] at h1
      simp at h1
    · rw [hf] at h1
      cases vf with
      | vfile n m sz =>
        rw [Bool.and_eq_true] at h1
        have hsz := of_decide_eq_true h1.1
        have hkeys : ∀ p ∈ attachShape ms sm acc tm,
            ∃ out, zparse p.2 ((getKey fs p.1).getD .vundefined) = .ok out := by
          intro p hp
          simp only [attachShape, List.mem_cons, List.not_mem_nil, or_false] at hp
          rcases hp with rfl | rfl | rfl | rfl | rfl
          · rw [hf]
            exact ⟨.vfile n m sz, by simp [zparse, hsz, h1.2]⟩
          · exact optStrOk_parses _ h2
          · exact optStrOk_parses _ h3
          · exact optNumOk_parses _ h4
          · exact optStrOk_parses _ h5
        have hnil := zparseShape_issues_nil _ fs hkeys
        exact ⟨.vobj (zparseShape (attachShape ms sm acc tm) fs).1,
          by simp [attachEntrySchema, zparse, hnil]⟩
      | vundefined => simp at h1
      | vnull => simp at h1
      | vbool b => simp at h1
      | vnum q => simp at h1
      | vstr s => simp at h1
      | vfun t => simp at h1
      | varr es => simp at h1
      | vobj gs => simp at h1
  | vundefined => simp [okEntry] at h
  | vnull => simp [okEntry] at h
  | vbool b => simp [okEntry] at h
  | vnum q => simp [okEntry] at h
  | vstr s => simp [okEntry] at h
  | vfun t => simp [okEntry] at h
  | vfile n m sz => simp [okEntry] at h
  | varr es => simp [okEntry] at h

theorem zobject_error_mem (shape : List (String × ZSchema)) (fs : List (String × Value))
    (msg : String) (hm : msg ∈ issueMsgs (zparseShape shape fs).2) :
    ∃ iss, zparse (.zobject shape) (.vobj fs) = .error iss ∧ msg ∈ issueMsgs iss := by
  rcases htot : (zparseShape shape fs).2 with _ | ⟨a, as⟩
  · rw [htot] at hm
    simp [issueMsgs] at hm
  · exact ⟨a :: as, by simp [zparse, htot], by rw [htot] at hm; exact hm⟩

theorem zarray_parses (elem : ZSchema) (L : ℚ) (maxMsg : String) (es : List Value)
    (hlen : ¬ ((es.length : ℚ) > L))
    (h : ∀ e ∈ es, ∃ out, zparse elem e = .ok out) :
    ∃ out, zparse (.zarray elem L maxMsg) (.varr es) = .ok out := by
  have hnil := zparseElems_issues_nil elem es 0 h
  exact ⟨.varr (zparseElems elem es 0).1, by simp [zparse, hlen, hnil]⟩

theorem zarray_error_mem (elem : ZSchema) (L : ℚ) (maxMsg : String) (es : List Value)
    (e : Value) (iss : ZIssues) (msg : String)
    (he : e ∈ es) (hp : zparse elem e = .error iss) (hm : msg ∈ issueMsgs iss) :
    ∃ iss2, zparse (.zarray elem L maxMsg) (.varr es) = .error iss2 ∧
      msg ∈ issueMsgs iss2 := by
  have hmem := zparseElems_msg_mem elem es 0 e iss msg he hp hm
  have hmem2 : msg ∈ issueMsgs
      ((if (es.length : ℚ) > L then [(([] : List String), maxMsg)] else []) ++
        (zparseElems elem es 0).2) := by
    simp only [issueMsgs, List.map_append, List.mem_append]
    exact Or.inr hmem
  rcases htot : (if (es.length : ℚ) > L then [(([] : List String), maxMsg)] else []) ++
      (zparseElems elem es 0).2 with _ | ⟨a, as⟩
  · rw [htot] at hmem2
    simp [issueMsgs] at hmem2
  · refine ⟨a :: as, ?_, by rw [htot] at hmem2; exact hmem2⟩
    simp only [zparse]
    rw [htot]

theorem zarray_error_maxlen (elem : ZSchema) (L : ℚ) (maxMsg : String) (es : List Value)
    (hlen : (es.length : ℚ) > L) :
    ∃ iss2, zparse (.zarray elem L maxMsg) (.varr es) = .error iss2 ∧
      maxMsg ∈ issueMsgs iss2 := by
  refine ⟨([], maxMsg) :: (zparseElems elem es 0).2, ?_, by simp [issueMsgs]⟩
  simp [zparse, hlen]

theorem attachEntry_sizeMsg (ms : ℚ) (sm : String) (acc : List Value) (tm : String)
    (fs : List (String × Value)) (n m : String) (sz : ℚ)
    (hget : getKey fs "file" = some (.vfile n m sz)) (hsz : ¬ sz ≤ ms) :
    ∃ iss, zparse (attachEntrySchema ms sm acc tm) (.vobj fs) = .error iss ∧
      sm ∈ issueMsgs iss := by
  have hfile : ∃ iss0, zparse (.zfile ms sm acc tm) (.vfile n m sz) = .error iss0 ∧
      sm ∈ issueMsgs iss0 := by
    by_cases hinc : jsIncludesStr acc m = true
    · exact ⟨[([], sm)], by simp [zparse, hsz, hinc], by simp [issueMsgs]⟩
    · exact ⟨[([], sm), ([], tm)],
        by simp only [Bool.not_eq_true] at hinc; simp [zparse, hsz, hinc],
        by simp [issueMsgs]⟩
  obtain ⟨iss0, hz, hmem0⟩ := hfile
  have hmem := zparseShape_msg_mem (attachShape ms sm acc tm) fs "file"
    (.zfile ms sm acc tm) (.vfile n m sz) iss0 sm (by simp [attachShape]) hget hz hmem0
  exact zobject_error_mem _ fs sm hmem

theorem attachEntry_typeMsg (ms : ℚ) (sm : String) (acc : List Value) (tm : String)
    (fs : List (String × Value)) (n m : String) (sz : ℚ)
    (hget : getKey fs "file" = some (.vfile n m sz))
    (hinc : jsIncludesStr acc m = false) :
    ∃ iss, zparse (attachEntrySchema ms sm acc tm) (.vobj fs) = .error iss ∧
      tm ∈ issueMsgs iss := by
  have hfile : ∃ iss0, zparse (.zfile ms sm acc tm) (.vfile n m sz) = .error iss0 ∧
      tm ∈ issueMsgs iss0 := by
    by_cases hsz : sz ≤ ms
    · exact ⟨[([], tm)], by simp [zparse, hsz, hinc], by simp [issueMsgs]⟩
    · exact ⟨[([], sm), ([], tm)], by simp [zparse, hsz, hinc], by simp [issueMsgs]⟩
  obtain ⟨iss0, hz, hmem0⟩ := hfile
  have hmem := zparseShape_msg_mem (attachShape ms sm acc tm) fs "file"
    (.zfile ms sm acc tm) (.vfile n m sz) iss0 tm (by simp [attachShape]) hget hz hmem0
  exact zobject_error_mem _ fs tm hmem

/-- The configured maximum file size read by the attachment schema. -/
def cfgMaxFileSize (config : Value) : ℚ :=
  numOf (oget (oget config "fileSettings") "maxFileSize")

/-- The configured accepted MIME types read by the attachment schema. -/
def cfgAcceptedTypes (config : Value) : List Value :=
  elemsOf (oget (oget config "fileSettings") "acceptedImageTypes")

def cfgFileSizeMsg (config : Value) : String :=
  msgString (oget (oget config "errorMessages") "fileSize")

def cfgFileTypeMsg (config : Value) : String :=
  msgString (oget (oget config "errorMessages") "fileType")

def cfgMaxFilesMsg (config : Value) : String :=
  msgString (oget (oget config "errorMessages") "maxFiles")

theorem zparse_zoptional_varr (inner : ZSchema) (es : List Value) :
    zparse (.zoptional inner) (.varr es) = zparse inner (.varr es) := by
  simp only [zparse]

theorem attachmentsSchema_eq (config : Value) :
    attachmentsSchema config = .zoptional (.zarray
      (attachEntrySchema (cfgMaxFileSize config) (cfgFileSizeMsg config)
        (cfgAcceptedTypes config) (cfgFileTypeMsg config))
      3 (cfgMaxFilesMsg config)) := rfl

/-- A configuration built by `initContactFormConfig` whose configured maximum
attachment count (`fieldConfigs.attachments.maxFiles`) is 5. -/
def cfgMaxFiles5 : Value := initContactFormConfig
  (.vobj [("fieldConfigs", .vobj [("attachments", .vobj [("maxFiles", .vnum 5)])])])

/-- A valid attachment entry: a 10-byte `image/png` file. -/
def pngEntry : Value := .vobj [("file", .vfile "a.png" "image/png" 10)]

/-- C7 counterexample: in a built configuration whose configured maximum file
count is 5, the built attachments schema still rejects an array of 4 valid
files with the `maxFiles` message — the array-length bound is the literal 3
in the schema builder, not the configured maximum file count. -/
theorem attachments_schema_ignores_configured_maxFiles :
    oget (oget (oget cfgMaxFiles5 "fieldConfigs") "attachments") "maxFiles" = .vnum 5 ∧
    getKey (buildValidationSchemas cfgMaxFiles5).fields "attachments" =
      some (attachmentsSchema cfgMaxFiles5) ∧
    okEntry (cfgMaxFileSize cfgMaxFiles5) (cfgAcceptedTypes cfgMaxFiles5) pngEntry = true ∧
    (∃ iss, zparse (attachmentsSchema cfgMaxFiles5)
        (.varr [pngEntry, pngEntry, pngEntry, pngEntry]) = .error iss ∧
      "Maximum 3 images allowed" ∈ issueMsgs iss) := by
  refine ⟨rfl, buildValidationSchemas_attachments _, rfl, ?_⟩
  obtain ⟨iss2, hz, hm⟩ := zarray_error_maxlen
    (attachEntrySchema (cfgMaxFileSize cfgMaxFiles5) (cfgFileSizeMsg cfgMaxFiles5)
      (cfgAcceptedTypes cfgMaxFiles5) (cfgFileTypeMsg cfgMaxFiles5))
    3 (cfgMaxFilesMsg cfgMaxFiles5)
    [pngEntry, pngEntry, pngEntry, pngEntry] (by norm_num)
  refine ⟨iss2, ?_, ?_⟩
  · rw [attachmentsSchema_eq, zparse_zoptional_varr]
    exact hz
  · exact (show cfgMaxFilesMsg cfgMaxFiles5 = "Maximum 3 images allowed" from rfl) ▸ hm

/-- C7 (amended): for every built configuration, the attachments field schema
is the fixed attachment schema; it accepts a missing (`undefined`) array;
it accepts any array of at most 3 well-formed entries
(`{file, name?, type?, size?, preview?}` with the file within the configured
size bound and configured accepted MIME set); it rejects any array containing
an entry whose file size exceeds the configured maximum, with the configured
`fileSize` message among the issues; it rejects any array containing an entry
whose MIME type is outside the configured accepted set, with the configured
`fileType` message; and it rejects every array of more than 3 entries with
the configured `maxFiles` message — the length bound is the constant 3,
regardless of any configured maximum file count (the amendment forced by the
counterexample). -/
theorem attachments_schema_behaviour (config : Value) :
    getKey (buildValidationSchemas config).fields "attachments" =
      some (attachmentsSchema config) ∧
    zparse (attachmentsSchema config) .vundefined = .ok .vundefined ∧
    (∀ es : List Value,
      (∀ e ∈ es, okEntry (cfgMaxFileSize config) (cfgAcceptedTypes config) e = true) →
      es.length ≤ 3 →
      ∃ out, zparse (attachmentsSchema config) (.varr es) = .ok out) ∧
    (∀ (es : List Value) (fs : List (String × Value)) (n m : String) (sz : ℚ),
      .vobj fs ∈ es → getKey fs "file" = some (.vfile n m sz) →
      ¬ sz ≤ cfgMaxFileSize config →
      ∃ iss, zparse (attachmentsSchema config) (.varr es) = .error iss ∧
        cfgFileSizeMsg config ∈ issueMsgs iss) ∧
    (∀ (es : List Value) (fs : List (String × Value)) (n m : String) (sz : ℚ),
      .vobj fs ∈ es → getKey fs "file" = some (.vfile n m sz) →
      jsIncludesStr (cfgAcceptedTypes config) m = false →
      ∃ iss, zparse (attachmentsSchema config) (.varr es) = .error iss ∧
        cfgFileTypeMsg config ∈ issueMsgs iss) ∧
    (∀ es : List Value, 3 < es.length →
      ∃ iss, zparse (attachmentsSchema config) (.varr es) = .error iss ∧
        cfgMaxFilesMsg config ∈ issueMsgs iss) := by
  refine ⟨buildValidationSchemas_attachments _, by simp [attachmentsSchema_eq, zparse], ?_, ?_, ?_, ?_⟩
  · intro es hok hlen
    have hcast : ¬ ((es.length : ℚ) > 3) := by
      rw [not_lt]
      exact_mod_cast hlen
    obtain ⟨out, hz⟩ := zarray_parses
      (attachEntrySchema (cfgMaxFileSize config) (cfgFileSizeMsg config)
        (cfgAcceptedTypes config) (cfgFileTypeMsg config))
      3 (cfgMaxFilesMsg config) es hcast
      (fun e he => attachEntry_parses _ _ _ _ e (hok e he))
    refine ⟨out, ?_⟩
    rw [attachmentsSchema_eq, zparse_zoptional_varr]
    exact hz
  · intro es fs n m sz hmem hget hsz
    obtain ⟨iss0, hz0, hm0⟩ := attachEntry_sizeMsg (cfgMaxFileSize config)
      (cfgFileSizeMsg config) (cfgAcceptedTypes config) (cfgFileTypeMsg config)
      fs n m sz hget hsz
    obtain ⟨iss, hz, hm⟩ := zarray_error_mem _ 3 (cfgMaxFilesMsg config) es
      (.vobj fs) iss0 (cfgFileSizeMsg config) hmem hz0 hm0
    refine ⟨iss, ?_, hm⟩
    rw [attachmentsSchema_eq, zparse_zoptional_varr]
    exact hz
  · intro es fs n m sz hmem hget hinc
    obtain ⟨iss0, hz0, hm0⟩ := attachEntry_typeMsg (cfgMaxFileSize config)
      (cfgFileSizeMsg config) (cfgAcceptedTypes config) (cfgFileTypeMsg config)
      fs n m sz hget hinc
    obtain ⟨iss, hz, hm⟩ := zarray_error_mem _ 3 (cfgMaxFilesMsg config) es
      (.vobj fs) iss0 (cfgFileTypeMsg config) hmem hz0 hm0
    refine ⟨iss, ?_, hm⟩
    rw [attachmentsSchema_eq, zparse_zoptional_varr]
    exact hz
  · intro es hlen
    obtain ⟨iss, hz, hm⟩ := zarray_error_maxlen
      (attachEntrySchema (cfgMaxFileSize config) (cfgFileSizeMsg config)
        (cfgAcceptedTypes config) (cfgFileTypeMsg config))
      3 (cfgMaxFilesMsg config) es (by exact_mod_cast hlen)
    refine ⟨iss, ?_, hm⟩
    rw [attachmentsSchema_eq, zparse_zoptional_varr]
    exact hz

/-- Witness for C7 (amended) at the default configuration: one valid file is
accepted; an oversize file is rejected with the `fileSize` message; a PDF is
rejected with the `fileType` message; four valid files are rejected with the
`maxFiles` message. -/
theorem attachments_schema_behaviour_witness :
    (∃ out, zparse (attachmentsSchema defaultConfig) (.varr [pngEntry]) = .ok out) ∧
    (∃ iss, zparse (attachmentsSchema defaultConfig)
        (.varr [.vobj [("file", .vfile "big.png" "image/png" 5242881)]]) = .error iss ∧
      cfgFileSizeMsg defaultConfig ∈ issueMsgs iss) ∧
    (∃ iss, zparse (attachmentsSchema defaultConfig)
        (.varr [.vobj [("file", .vfile "doc.pdf" "application/pdf" 10)]]) = .error iss ∧
      cfgFileTypeMsg defaultConfig ∈ issueMsgs iss) ∧
    (∃ iss, zparse (attachmentsSchema defaultConfig)
        (.varr [pngEntry, pngEntry, pngEntry, pngEntry]) = .error iss ∧
      cfgMaxFilesMsg defaultConfig ∈ issueMsgs iss) := by
  refine ⟨?_, ?_, ?_, ?_⟩
  · exact (attachments_schema_behaviour defaultConfig).2.2.1 [pngEntry]
      (by
        intro e he
        simp only [List.mem_singleton] at he
        subst he
        rfl)
      (by norm_num)
  · exact (attachments_schema_behaviour defaultConfig).2.2.2.1
      [.vobj [("file", .vfile "big.png" "image/png" 5242881)]]
      [("file", .vfile "big.png" "image/png" 5242881)] "big.png" "image/png" 5242881
      (by simp) rfl (by
        rw [show cfgMaxFileSize defaultConfig = 5242880 from rfl]
        norm_num)
  · exact (attachments_schema_behaviour defaultConfig).2.2.2.2.1
      [.vobj [("file", .vfile "doc.pdf" "application/pdf" 10)]]
      [("file", .vfile "doc.pdf" "application/pdf" 10)] "doc.pdf" "application/pdf" 10
      (by simp) rfl rfl
  · exact (attachments_schema_behaviour defaultConfig).2.2.2.2.2
      [pngEntry, pngEntry, pngEntry, pngEntry] (by norm_num)

/-- The `general` category schema that `buildValidationSchemas` derives from
the default configuration, written out (checked against the builder by
`lookupGeneralFound` below). -/
def generalSchema : ZSchema := .zobject
  [("attachments", .zoptional (.zarray (.zobject
      [("file", .zfile 5242880 "File size must be less than 5MB"
          [.vstr "image/jpeg", .vstr "image/jpg", .vstr "image/png",
           .vstr "image/webp", .vstr "image/gif"]
          "Only .jpg, .jpeg, .png, .webp and .gif files are accepted"),
       ("name", .zoptional (.zstring [])),
       ("type", .zoptional (.zstring [])),
       ("size", .zoptional .znumber),
       ("preview", .zoptional (.zstring []))]) 3 "Maximum 3 images allowed")),
   ("name", .zstring [.min 1 "Please provide your name", .max 100 "Maximum 100 characters"]),
   ("email", .zstring [.email "Please enter a valid email address",
      .min 1 "Please enter a valid email address", .max 254 "Maximum 254 characters"]),
   ("message", .zstring [.min 1 "Please share your message with us",
      .max 5000 "Maximum 5000 characters"]),
   ("coppa", .zcheckbox ("Please confirm you" ++ apos ++
      "re over 13 or have parent/teacher permission"))]

theorem lookupConstructorInherited :
    lookupCategorySchema (buildValidationSchemas defaultConfig).categories
      "constructor" = .inherited := rfl

theorem lookupGeneralFound :
    getKey (buildValidationSchemas defaultConfig).categories "general" =
      some generalSchema := rfl

theorem generalParseJo : zparse generalSchema (.vobj [("name", .vstr "Jo")]) =
    .error [(["email"], "Required"), (["message"], "Required"),
      (["coppa"], "Invalid input")] := by
  simp +decide [generalSchema, zparse, zparseShape, zparseElems, strIssues, getKey,
    emailFormatOk, jsIncludesStr, apos]

/-- Evaluation of the parser at the `general` category and the single entry
`name=Jo`, parametric in the schema set (keeps the derived-schema term out of
the rewrite motives). -/
theorem formDataParser_eval_generalJo (S : Schemas) (g : ZSchema)
    (hg : getKey S.categories "general" = some g) :
    formDataParser S [("name", .vstr "Jo")] "general" =
      match zparse g (.vobj [("name", .vstr "Jo")]) with
      | .ok d => ⟨d, []⟩
      | .error iss =>
          ⟨.vobj [("name", .vstr "Jo")],
           iss.foldl (fun acc i => setKey acc (joinPath i.1) i.2) []⟩ := by
  have hsel : lookupCategorySchema S.categories "general" = .found g := by
    simp [lookupCategorySchema, hg]
  simp +decide [formDataParser, hsel, jsOrLookup, getKey, setKey]

/-- C9 counterexample: the slug `constructor` has no category schema in the
default configuration, yet the parser does not fall back to `general`: the
property read `schemas.categories["constructor"]` returns the inherited
(truthy) `Object.prototype.constructor`, `safeParse` is not a function on it,
and the catch yields the `_form` error — while parsing the same form data
with category `general` returns the echoed data with per-field errors. -/
theorem formDataParser_inherited_slug_no_fallback :
    formDataParser (buildValidationSchemas defaultConfig)
        [("name", .vstr "Jo")] "constructor" =
      ⟨.vobj [], [("_form", "An error occurred while processing the form data.")]⟩ ∧
    formDataParser (buildValidationSchemas defaultConfig)
        [("name", .vstr "Jo")] "general" =
      ⟨.vobj [("name", .vstr "Jo")],
       [("email", "Required"), ("message", "Required"), ("coppa", "Invalid input")]⟩ ∧
    ([("_form", "An error occurred while processing the form data.")] :
        List (String × String)) ≠
      [("email", "Required"), ("message", "Required"), ("coppa", "Invalid input")] := by
  refine ⟨?_, ?_, by decide⟩
  · simp only [formDataParser, lookupConstructorInherited, jsOrLookup]
  · have h := formDataParser_eval_generalJo (buildValidationSchemas defaultConfig)
      generalSchema lookupGeneralFound
    rw [generalParseJo] at h
    simpa +decide [joinPath, setKey] using h

/-- C9 (amended): for every built configuration that contains a `general`
category, the attached `formDataParser`, invoked with a category slug that
has no category schema and does not name an `Object.prototype` member,
validates against the `general` category schema: its result equals parsing
the same form data with category `general`.  (The amendment is forced by the
counterexample: a slug such as `constructor` or `toString` hits the inherited
truthy value instead of the `undefined` that triggers the fallback, and the
parser returns the `_form` error.) -/
theorem formDataParser_general_fallback (config : Value)
    (formData : List (String × Value)) (slug : String)
    (hmiss : getKey (buildValidationSchemas config).categories slug = none)
    (hproto : objectPrototypeKeys.contains slug = false)
    (hgen : (getKey (buildValidationSchemas config).categories "general").isSome = true) :
    formDataParser (buildValidationSchemas config) formData slug =
      formDataParser (buildValidationSchemas config) formData "general" := by
  obtain ⟨g, hg⟩ := Option.isSome_iff_exists.mp hgen
  have hproto2 : slug ∉ objectPrototypeKeys := by simpa using hproto
  have h1 : lookupCategorySchema (buildValidationSchemas config).categories slug =
      .absent := by
    simp [lookupCategorySchema, hmiss, hproto2]
  have h2 : lookupCategorySchema (buildValidationSchemas config).categories "general" =
      .found g := by
    simp [lookupCategorySchema, hg]
  simp only [formDataParser, jsOrLookup, h1, h2]

/-- Witness for C9 (amended): parsing under an unknown, non-inherited slug
equals parsing under `general` for the default configuration. -/
theorem formDataParser_general_fallback_witness :
    formDataParser (buildValidationSchemas defaultConfig)
        [("name", .vstr "Jo")] "nonexistent" =
      formDataParser (buildValidationSchemas defaultConfig)
        [("name", .vstr "Jo")] "general" :=
  formDataParser_general_fallback defaultConfig [("name", .vstr "Jo")] "nonexistent"
    rfl rfl rfl

/-! ### C10 machinery: the parsed data never echoes the CSRF token -/

theorem getKey_setKey_ne {α : Type} (fs : List (String × α)) (k k' : String) (v : α)
    (h : ¬ k' = k) : getKey (setKey fs k v) k' = getKey fs k' := by
  have hne : ¬ k = k' := fun hh => h hh.symm
  induction fs with
  | nil =>
      simp only [setKey, getKey]
      rw [if_neg hne]
  | cons p rest ih =>
      obtain ⟨k0, v0⟩ := p
      by_cases h0 : k0 = k
      · subst h0
        simp only [setKey, if_pos rfl, getKey]
        simp only [if_neg hne]
      · simp only [setKey, if_neg h0, getKey, ih]

theorem hasKey_foldl_skip_csrf (formData : List (String × Value))
    (init : List (String × Value)) (h : hasKey init "csrf" = false) :
    hasKey (formData.foldl
      (fun acc p => if p.1 = "csrf" then acc else setKey acc p.1 p.2) init) "csrf" =
      false := by
  induction formData generalizing init with
  | nil => simpa using h
  | cons p rest ih =>
      obtain ⟨k, v⟩ := p
      by_cases hk : k = "csrf"
      · simp only [List.foldl_cons, hk, if_pos rfl]
        exact ih init h
      · simp only [List.foldl_cons, if_neg hk]
        refine ih _ ?_
        simp only [hasKey] at h ⊢
        rw [getKey_setKey_ne _ _ _ _ (fun hh => hk hh.symm)]
        exact h

theorem zparseShape_out_keys (shape : List (String × ZSchema))
    (fs : List (String × Value)) (k : String) (hk : getKey fs k = none) :
    getKey (zparseShape shape fs).1 k = none := by
  induction shape with
  | nil => simp [zparseShape, getKey]
  | cons p rest ih =>
      obtain ⟨k', sch⟩ := p
      simp only [zparseShape]
      rcases hg : getKey fs k' with _ | v
      · rcases hz : zparse sch .vundefined with iss | out <;> simp [hg, hz, ih]
      · rcases hz : zparse sch v with iss | out
        · simp [hg, hz, ih]
        · have hne : ¬ k' = k := by
            intro hh
            rw [hh, hk] at hg
            exact Option.noConfusion hg
          simp [hg, hz, getKey, hne, ih]

theorem zparse_zoptional_vobj (inner : ZSchema) (fs : List (String × Value)) :
    zparse (.zoptional inner) (.vobj fs) = zparse inner (.vobj fs) := by
  simp only [zparse]

/-- Keys of a successfully parsed object output are keys of the input: none
of the embedded zod combinators invents an absent key. -/
theorem zparse_ok_keys : ∀ (sch : ZSchema) (fs : List (String × Value)) (out : Value),
    zparse sch (.vobj fs) = .ok out → ∀ k, hasKey fs k = false → objHasKey out k = false
  | .zstring checks, fs, out, h, k, hk => by simp [zparse] at h
  | .znumber, fs, out, h, k, hk => by simp [zparse] at h
  | .zcheckbox m, fs, out, h, k, hk => by simp [zparse] at h
  | .zfile ms sm acc tm, fs, out, h, k, hk => by simp [zparse] at h
  | .zarray e L mm, fs, out, h, k, hk => by simp [zparse] at h
  | .zoptional inner, fs, out, h, k, hk =>
      zparse_ok_keys inner fs out (by rw [zparse_zoptional_vobj] at h; exact h) k hk
  | .zobject shape, fs, out, h, k, hk => by
      simp only [zparse] at h
      rcases htot : (zparseShape shape fs).2 with _ | ⟨a, as⟩
      · rw [htot] at h
        simp only [Except.ok.injEq] at h
        subst h
        simp only [objHasKey, hasKey]
        rw [zparseShape_out_keys shape fs k
          (by simpa [hasKey, Option.isSome_iff_exists] using hk)]
        rfl
      · rw [htot] at h
        simp at h

theorem hasKey_csrf_formDataObj (formData : List (String × Value)) (v : Value) :
    hasKey (if (formData.filterMap
        (fun p => if p.1 = "attachments[]" then some p.2 else none)).length ≠ 0
      then setKey (formData.foldl
        (fun acc p => if p.1 = "csrf" then acc else setKey acc p.1 p.2) [])
        "attachments" v
      else formData.foldl
        (fun acc p => if p.1 = "csrf" then acc else setKey acc p.1 p.2) [])
      "csrf" = false := by
  have hbase := hasKey_foldl_skip_csrf formData [] rfl
  split
  · simp only [hasKey] at hbase ⊢
    rw [getKey_setKey_ne _ _ _ _ (by decide)]
    exact hbase
  · exact hbase

/-- C10: for every built configuration, every form-data input and every
category, the data record returned by `formDataParser` — on success, on
validation failure, and on the internal-error path — never contains a key
named `csrf`: the token field is stripped before validation and is never
echoed in the parsed data. -/
theorem formDataParser_strips_csrf (config : Value)
    (formData : List (String × Value)) (category : String) :
    objHasKey (formDataParser (buildValidationSchemas config) formData category).data
      "csrf" = false := by
  simp only [formDataParser]
  rcases hs : jsOrLookup
      (lookupCategorySchema (buildValidationSchemas config).categories category)
      (lookupCategorySchema (buildValidationSchemas config).categories "general")
    with schema | _ | _
  case inherited =>
    simp only [hs]
    simp [objHasKey, hasKey, getKey]
  case absent =>
    simp only [hs]
    simp [objHasKey, hasKey, getKey]
  case found =>
    simp only [hs]
    have hno := hasKey_csrf_formDataObj formData
      (.varr ((formData.filterMap
        (fun p => if p.1 = "attachments[]" then some p.2 else none)).map fileEntry))
    rcases hz : zparse schema (.vobj (if (formData.filterMap
        (fun p => if p.1 = "attachments[]" then some p.2 else none)).length ≠ 0
      then setKey (formData.foldl
        (fun acc p => if p.1 = "csrf" then acc else setKey acc p.1 p.2) [])
        "attachments" (.varr ((formData.filterMap
          (fun p => if p.1 = "attachments[]" then some p.2 else none)).map fileEntry))
      else formData.foldl
        (fun acc p => if p.1 = "csrf" then acc else setKey acc p.1 p.2) []))
      with iss | out
    · simp only [hz]
      simpa [objHasKey, hasKey] using hno
    · simp only [hz]
      exact zparse_ok_keys schema _ out hz "csrf" hno

end Goobits
